import Mathlib

/-!
Verification of the vi-mode input engine
(`src/claudechic/widgets/input/vi_mode.py`).

The engine is a modal key-handling state machine (`ViHandler`) driving an
external text-buffer widget.  The buffer itself is not part of this
repository; its contract (cursor/selection primitives, line access,
range edits, undo/redo) is modelled from the specification, while the
state machine (`ViState`, `handle_key` and its helpers) is translated
directly from the source.
-/

namespace ViSpec

/-- A line (or any run) of text, as a list of characters. -/
abbrev Str := List Char

/-- A (row, column) location in the document. -/
abbrev Loc := Nat × Nat

/-- Lexicographic strict order on locations (Python tuple comparison). -/
def locLt (a b : Loc) : Bool :=
  a.1 < b.1 || (a.1 = b.1 && a.2 < b.2)

/-- Split a character list at every newline, as Python `str.split("\n")`:
the result is always nonempty, and empty pieces are kept. -/
def splitNL : Str → List Str
  | [] => [[]]
  | c :: cs =>
    match splitNL cs with
    | [] => [[c]]
    | r :: rs => if c = '\n' then [] :: r :: rs else (c :: r) :: rs

/-- Join lines with newlines: the full document text. -/
def fullText : List Str → Str
  | [] => []
  | [l] => l
  | l :: ls => l ++ '\n' :: fullText ls

/-- Linear character offset of a location, counting one character per
line break (`sum(len(lines[i]) + 1 for i in range(row)) + col`). -/
def toOff (lines : List Str) (loc : Loc) : Nat :=
  ((lines.take loc.1).map (fun l => l.length + 1)).sum + loc.2

/-- Location of a linear character offset (clamped into the last line). -/
def fromOff : List Str → Nat → Loc
  | [], _ => (0, 0)
  | [l], n => (0, min n l.length)
  | l :: ls, n =>
    if n ≤ l.length then (0, n)
    else
      let p := fromOff ls (n - l.length - 1)
      (p.1 + 1, p.2)

/-- Length of the leading run of characters satisfying `p`. -/
def skipWhile (p : Char → Bool) : Str → Nat
  | [] => 0
  | c :: cs => if p c then skipWhile p cs + 1 else 0

/-- Index of the first occurrence of `c` at index ≥ `start`
(Python `line.find(c, start)`), if any. -/
def findFrom (line : Str) (start : Nat) (c : Char) : Option Nat :=
  ((line.drop start).findIdx? (· = c)).map (· + start)

/-- Index of the last occurrence of `c` at index < `stop`
(Python `line.rfind(c, 0, stop)`), if any. -/
def rfindBefore (line : Str) (stop : Nat) (c : Char) : Option Nat :=
  ((line.take stop).reverse.findIdx? (· = c)).map (fun i => stop - 1 - i)

/-- Modelled from the spec: the external text-buffer widget (the
`TextArea` consumed through the §6 contract).  Content is a nonempty
list of lines; the cursor is the `end` of the selection, as in the
host toolkit; a simple snapshot stack stands in for the buffer's
undo/redo facility. -/
structure TextAreaState where
  lines : List Str
  selStart : Loc
  selEnd : Loc
  undoStack : List (List Str × Loc × Loc) := []
  redoStack : List (List Str × Loc × Loc) := []
deriving Repr, DecidableEq

namespace TextAreaState

/-- `cursor_location`: the selection end. -/
def cursor (ta : TextAreaState) : Loc := ta.selEnd

/-- `document.get_line(row)`. -/
def getLine (ta : TextAreaState) (row : Nat) : Str := ta.lines.getD row []

/-- `text`: the full document text. -/
def text (ta : TextAreaState) : Str := fullText ta.lines

/-- `document.end`: location of the last character slot. -/
def docEnd (ta : TextAreaState) : Loc :=
  (ta.lines.length - 1, ((ta.lines.getLast?).getD []).length)

/-- `move_cursor(p)`: collapse the selection onto `p`. -/
def move_cursor (ta : TextAreaState) (p : Loc) : TextAreaState :=
  { ta with selStart := p, selEnd := p }

/-- `selection = Selection(s, e)`. -/
def setSelection (ta : TextAreaState) (s e : Loc) : TextAreaState :=
  { ta with selStart := s, selEnd := e }

/-- `get_text_range`: text between two locations (sorted, end exclusive). -/
def textRange (ta : TextAreaState) (a b : Loc) : Str :=
  let p := if locLt b a then (b, a) else (a, b)
  let t := fullText ta.lines
  (t.drop (toOff ta.lines p.1)).take (toOff ta.lines p.2 - toOff ta.lines p.1)

/-- `selected_text`. -/
def selectedText (ta : TextAreaState) : Str := ta.textRange ta.selStart ta.selEnd

/-- Remap a selection endpoint across an edit replacing offsets
`[topOff, botOff)` with `insLen` characters: positions at or after the
old bottom shift by the edit delta, positions inside the edited range
move to the end of the replacement, earlier positions are unchanged. -/
def remapLoc (oldLines newLines : List Str) (topOff botOff insLen : Nat) (p : Loc) : Loc :=
  let off := toOff oldLines p
  if botOff ≤ off then fromOff newLines (off - botOff + topOff + insLen)
  else if topOff < off then fromOff newLines (topOff + insLen)
  else p

/-- Core edit primitive: replace the (sorted) range `[a, b)` by `ins`,
remapping the selection and snapshotting for undo. -/
def replaceRange (ta : TextAreaState) (a b : Loc) (ins : Str) : TextAreaState :=
  let p := if locLt b a then (b, a) else (a, b)
  let t := fullText ta.lines
  let topOff := toOff ta.lines p.1
  let botOff := toOff ta.lines p.2
  let newLines := splitNL (t.take topOff ++ ins ++ t.drop botOff)
  { lines := newLines
    selStart := remapLoc ta.lines newLines topOff botOff ins.length ta.selStart
    selEnd := remapLoc ta.lines newLines topOff botOff ins.length ta.selEnd
    undoStack := (ta.lines, ta.selStart, ta.selEnd) :: ta.undoStack
    redoStack := [] }

/-- `insert(text)`: insert at the cursor, cursor ends after the text. -/
def insertText (ta : TextAreaState) (s : Str) : TextAreaState :=
  ta.replaceRange ta.cursor ta.cursor s

/-- `delete(start, end)`. -/
def deleteRange (ta : TextAreaState) (a b : Loc) : TextAreaState :=
  ta.replaceRange a b []

/-- Target of `action_cursor_left` (wraps to the previous line end). -/
def cursorLeftLoc (ta : TextAreaState) : Loc :=
  let (r, c) := ta.cursor
  if c > 0 then (r, c - 1)
  else if r > 0 then (r - 1, (ta.getLine (r - 1)).length)
  else (0, 0)

/-- Target of `action_cursor_right` (wraps to the next line start). -/
def cursorRightLoc (ta : TextAreaState) : Loc :=
  let (r, c) := ta.cursor
  if c < (ta.getLine r).length then (r, c + 1)
  else if r + 1 < ta.lines.length then (r + 1, 0)
  else (r, c)

def action_cursor_left (ta : TextAreaState) : TextAreaState :=
  ta.move_cursor ta.cursorLeftLoc

def action_cursor_right (ta : TextAreaState) : TextAreaState :=
  ta.move_cursor ta.cursorRightLoc

/-- `action_cursor_down`: next row (column clamped), or end of the last line. -/
def action_cursor_down (ta : TextAreaState) : TextAreaState :=
  let (r, c) := ta.cursor
  if r + 1 < ta.lines.length then ta.move_cursor (r + 1, min c (ta.getLine (r + 1)).length)
  else ta.move_cursor (r, (ta.getLine r).length)

/-- `action_cursor_up`: previous row (column clamped), or start of the document. -/
def action_cursor_up (ta : TextAreaState) : TextAreaState :=
  let (r, c) := ta.cursor
  if r = 0 then ta.move_cursor (0, 0)
  else ta.move_cursor (r - 1, min c (ta.getLine (r - 1)).length)

def action_cursor_line_start (ta : TextAreaState) : TextAreaState :=
  ta.move_cursor (ta.cursor.1, 0)

def action_cursor_line_end (ta : TextAreaState) : TextAreaState :=
  ta.move_cursor (ta.cursor.1, (ta.getLine ta.cursor.1).length)

/-- `action_cursor_word_right`: skip the rest of the current word, then
whitespace, landing at the next word start (wraps at line end). -/
def action_cursor_word_right (ta : TextAreaState) : TextAreaState :=
  let (r, c) := ta.cursor
  let line := ta.getLine r
  if line.length ≤ c then
    if r + 1 < ta.lines.length then ta.move_cursor (r + 1, 0) else ta
  else
    let rest := line.drop c
    let n1 := skipWhile (fun ch => !ch.isWhitespace) rest
    let n2 := skipWhile (fun ch => ch.isWhitespace) (rest.drop n1)
    ta.move_cursor (r, c + n1 + n2)

/-- `action_cursor_word_left`: skip whitespace backwards, then the word,
landing at its start (wraps at line start). -/
def action_cursor_word_left (ta : TextAreaState) : TextAreaState :=
  let (r, c) := ta.cursor
  if c = 0 then
    if r > 0 then ta.move_cursor (r - 1, (ta.getLine (r - 1)).length)
    else ta.move_cursor (0, 0)
  else
    let revPre := ((ta.getLine r).take c).reverse
    let n1 := skipWhile (fun ch => ch.isWhitespace) revPre
    let n2 := skipWhile (fun ch => !ch.isWhitespace) (revPre.drop n1)
    ta.move_cursor (r, c - n1 - n2)

/-- `action_delete_right`: delete the character (or line break) right of
the cursor; no-op at end of document. -/
def action_delete_right (ta : TextAreaState) : TextAreaState :=
  let tgt := ta.cursorRightLoc
  if tgt = ta.cursor then ta else ta.deleteRange ta.cursor tgt

/-- `action_delete_left`: delete the character (or line break) left of
the cursor; no-op at start of document. -/
def action_delete_left (ta : TextAreaState) : TextAreaState :=
  let tgt := ta.cursorLeftLoc
  if tgt = ta.cursor then ta else ta.deleteRange tgt ta.cursor

/-- `action_delete_to_end_of_line`. -/
def action_delete_to_end_of_line (ta : TextAreaState) : TextAreaState :=
  let (r, c) := ta.cursor
  let e := (r, (ta.getLine r).length)
  if e = (r, c) then ta else ta.deleteRange (r, c) e

/-- `action_delete_line`: delete the whole current line, including its
line break when it has one. -/
def action_delete_line (ta : TextAreaState) : TextAreaState :=
  let r := ta.cursor.1
  let s : Loc := (r, 0)
  let e : Loc := if r + 1 < ta.lines.length then (r + 1, 0) else (r, (ta.getLine r).length)
  if e = s then ta else ta.deleteRange s e

/-- `action_undo`: restore the previous snapshot. -/
def action_undo (ta : TextAreaState) : TextAreaState :=
  match ta.undoStack with
  | [] => ta
  | (ls, s, e) :: rest =>
    { lines := ls, selStart := s, selEnd := e, undoStack := rest
      redoStack := (ta.lines, ta.selStart, ta.selEnd) :: ta.redoStack }

/-- `action_redo`. -/
def action_redo (ta : TextAreaState) : TextAreaState :=
  match ta.redoStack with
  | [] => ta
  | (ls, s, e) :: rest =>
    { lines := ls, selStart := s, selEnd := e, redoStack := rest
      undoStack := (ta.lines, ta.selStart, ta.selEnd) :: ta.undoStack }

end TextAreaState

/-- `ViMode`: vi editor modes. -/
inductive ViMode
  | INSERT
  | NORMAL
  | VISUAL
deriving Repr, DecidableEq

/-- `ViState`: state for vi-mode key handling. -/
structure ViState where
  mode : ViMode := .INSERT
  pending_operator : Option Char := none
  pending_count : Str := []
  pending_motion : Option Char := none
  pending_g : Bool := false
  last_change : Option (List Str) := none
  yank_buffer : Str := []
deriving Repr, DecidableEq

namespace ViState

/-- `reset_pending`: clear pending state after command execution. -/
def reset_pending (s : ViState) : ViState :=
  { s with pending_operator := none, pending_count := [],
           pending_motion := none, pending_g := false }

/-- Decimal value of a digit string (Python `int` on a digit string). -/
def parseCount (s : Str) : Nat :=
  s.foldl (fun n c => n * 10 + (c.toNat - 48)) 0

/-- `get_count`: pending count as a number, defaulting to 1. -/
def get_count (s : ViState) : Nat :=
  if s.pending_count = [] then 1 else parseCount s.pending_count

end ViState

/-- The handler together with its text area: one engine state. -/
structure Engine where
  ta : TextAreaState
  st : ViState
deriving Repr, DecidableEq

/-- A key event as delivered by the host: a key identifier plus the
printable character, absent for pure control keys. -/
structure KeyEvent where
  key : String
  ch : Option Char
deriving Repr, DecidableEq

/-- `_move_to_word_end`: move cursor to end of current/next word,
computed over the linear text (reads and writes only the text area). -/
def TextAreaState.move_to_word_end (ta : TextAreaState) : TextAreaState :=
  let text := ta.text
  let pos := toOff ta.lines ta.cursor
  let pos := pos + skipWhile (fun ch => !ch.isWhitespace) (text.drop pos)
  let pos := pos + skipWhile (fun ch => ch.isWhitespace) (text.drop pos)
  let pos := pos + skipWhile (fun ch => !ch.isWhitespace) (text.drop pos)
  let pos := if pos > 0 then pos - 1 else pos
  let pre := splitNL (text.take pos)
  ta.move_cursor (pre.length - 1, ((pre.getLast?).getD []).length)

/-- `_execute_char_motion`: execute f/F/t/T motion to a character (also
hosts the `r` replace, as in the source). -/
def Engine.execute_char_motion (e : Engine) (motion : Char) (ch : Char) : Engine :=
  let ta := e.ta
  if motion = 'r' then
    let ta := ta.action_delete_right
    let ta := ta.insertText [ch]
    let (r, c) := ta.cursor
    let ta := if c > 0 then ta.move_cursor (r, c - 1) else ta
    { e with ta := ta }
  else
    let (r, c) := ta.cursor
    let line := ta.getLine r
    if motion = 'f' ∨ motion = 't' then
      match findFrom line (c + 1) ch with
      | some idx =>
        let target := if motion = 'f' then idx else idx - 1
        { e with ta := ta.move_cursor (r, max c target) }
      | none => e
    else
      match rfindBefore line c ch with
      | some idx =>
        let target := if motion = 'F' then idx else idx + 1
        { e with ta := ta.move_cursor (r, min c target) }
      | none => e

/-- `_execute_line_operator`: execute a line operator (dd, cc, yy). -/
def Engine.execute_line_operator (e : Engine) (op : Char) : Engine :=
  let ta := e.ta
  let st := e.st
  let r := ta.cursor.1
  let ta := ta.action_cursor_line_start
  let lineStart := ta.cursor
  let ta := ta.action_cursor_line_end
  let ta := if r < ta.lines.length - 1 then ta.action_cursor_right else ta
  let lineEnd := ta.cursor
  if op = 'y' then
    let ta := ta.setSelection lineStart lineEnd
    let yk := ta.selectedText
    let ta := ta.setSelection lineStart lineStart
    let ta := ta.move_cursor lineStart
    ⟨ta, { st with yank_buffer := yk }⟩
  else if op = 'd' then
    let ta := ta.setSelection lineStart lineEnd
    let yk := ta.selectedText
    let ta := ta.deleteRange lineStart lineEnd
    ⟨ta, { st with yank_buffer := yk, last_change := some [['d', 'd']] }⟩
  else if op = 'c' then
    let ta := ta.setSelection lineStart lineEnd
    let yk := ta.selectedText
    let ta := ta.deleteRange lineStart lineEnd
    ⟨ta, { st with yank_buffer := yk, mode := .INSERT, last_change := some [['c', 'c']] }⟩
  else ⟨ta, st⟩

/-- `_execute_operator_motion`: execute operator with motion (dw, cw,
y$, etc.). -/
def Engine.execute_operator_motion (e : Engine) (op : Char) (motion : Str) : Engine :=
  let ta := e.ta
  let st := e.st
  let start := ta.cursor
  let ta :=
    if motion = "word_right".data then ta.action_cursor_word_right
    else if motion = "word_left".data then ta.action_cursor_word_left
    else if motion = "line_end".data then ta.action_cursor_line_end
    else if motion = "line_start".data then ta.action_cursor_line_start
    else ta
  let stop := ta.cursor
  let p := if locLt stop start then (stop, start) else (start, stop)
  if op = 'y' then
    let ta := ta.setSelection p.1 p.2
    let yk := ta.selectedText
    let ta := ta.setSelection p.1 p.1
    let ta := ta.move_cursor p.1
    ⟨ta, { st with yank_buffer := yk }⟩
  else if op = 'd' then
    let ta := ta.setSelection p.1 p.2
    let yk := ta.selectedText
    let ta := ta.deleteRange p.1 p.2
    ⟨ta, { st with yank_buffer := yk, last_change := some [['d'], motion] }⟩
  else if op = 'c' then
    let ta := ta.setSelection p.1 p.2
    let yk := ta.selectedText
    let ta := ta.deleteRange p.1 p.2
    ⟨ta, { st with yank_buffer := yk, mode := .INSERT, last_change := some [['c'], motion] }⟩
  else ⟨ta, st⟩

/-- `_replay_change`: replay a recorded change. -/
def Engine.replay_change (e : Engine) (change : List Str) : Engine :=
  if change = ["x".data] then { e with ta := e.ta.action_delete_right }
  else if change = ["X".data] then { e with ta := e.ta.action_delete_left }
  else if change = ["D".data] then { e with ta := e.ta.action_delete_to_end_of_line }
  else if change = ["C".data] then
    { e with ta := e.ta.action_delete_to_end_of_line, st := { e.st with mode := .INSERT } }
  else if change = ["s".data] then
    { e with ta := e.ta.action_delete_right, st := { e.st with mode := .INSERT } }
  else if change = ["S".data] then
    { e with ta := e.ta.action_cursor_line_start.action_delete_line,
             st := { e.st with mode := .INSERT } }
  else if change = ["dd".data] then e.execute_line_operator 'd'
  else if change = ["cc".data] then e.execute_line_operator 'c'
  else
    match change with
    | [op, m] =>
      if op = "d".data then e.execute_operator_motion 'd' m
      else if op = "c".data then e.execute_operator_motion 'c' m
      else e
    | _ => e

/-- The count-digit condition of `_handle_normal_key`:
`character and character.isdigit() and (pending_count or character != "0")`. -/
def digitCond (st : ViState) (och : Option Char) : Bool :=
  och.any fun c => c.isDigit && (!st.pending_count.isEmpty || c ≠ '0')

/-- `_handle_normal_key`: handle keys in NORMAL mode (always consumed). -/
def handle_normal_key (e : Engine) (k : KeyEvent) : Engine :=
  let st := e.st
  let ta := e.ta
  -- Handle pending 'g' commands
  if st.pending_g then
    if k.ch = some 'g' then ⟨ta.move_cursor (0, 0), st.reset_pending⟩
    else ⟨ta, st.reset_pending⟩
  else match st.pending_motion with
  -- Handle pending character motion (f/F/t/T, and r)
  | some motion =>
    match k.ch with
    | some c =>
      let e2 := Engine.execute_char_motion ⟨ta, { st with pending_motion := none }⟩ motion c
      ⟨e2.ta, e2.st.reset_pending⟩
    | none => ⟨ta, st.reset_pending⟩
  | none =>
  -- Accumulate count digits
  if digitCond st k.ch then
    ⟨ta, { st with pending_count := st.pending_count ++ k.ch.toList }⟩
  -- Mode switching
  else if k.ch = some 'i' then
    ⟨ta, { st.reset_pending with mode := .INSERT }⟩
  else if k.ch = some 'I' then
    ⟨ta.action_cursor_line_start, { st.reset_pending with mode := .INSERT }⟩
  else if k.ch = some 'a' then
    let (r, c) := ta.cursor
    let ta := if c < (ta.getLine r).length then ta.move_cursor (r, c + 1) else ta
    ⟨ta, { st.reset_pending with mode := .INSERT }⟩
  else if k.ch = some 'A' then
    ⟨ta.action_cursor_line_end, { st.reset_pending with mode := .INSERT }⟩
  else if k.ch = some 'o' then
    ⟨(ta.action_cursor_line_end).insertText ['\n'], { st.reset_pending with mode := .INSERT }⟩
  else if k.ch = some 'O' then
    ⟨((ta.action_cursor_line_start).insertText ['\n']).action_cursor_up,
     { st.reset_pending with mode := .INSERT }⟩
  else if k.ch = some 'v' then
    let loc := ta.cursor
    ⟨ta.setSelection loc loc, { st.reset_pending with mode := .VISUAL }⟩
  -- Navigation
  else if k.ch = some 'h' ∨ k.key = "left" then
    ⟨TextAreaState.action_cursor_left^[st.get_count] ta, st.reset_pending⟩
  else if k.ch = some 'l' ∨ k.key = "right" then
    ⟨TextAreaState.action_cursor_right^[st.get_count] ta, st.reset_pending⟩
  else if k.ch = some 'j' ∨ k.key = "down" then
    ⟨TextAreaState.action_cursor_down^[st.get_count] ta, st.reset_pending⟩
  else if k.ch = some 'k' ∨ k.key = "up" then
    ⟨TextAreaState.action_cursor_up^[st.get_count] ta, st.reset_pending⟩
  else if k.ch = some 'w' then
    ⟨TextAreaState.action_cursor_word_right^[st.get_count] ta, st.reset_pending⟩
  else if k.ch = some 'b' then
    ⟨TextAreaState.action_cursor_word_left^[st.get_count] ta, st.reset_pending⟩
  else if k.ch = some 'e' then
    ⟨TextAreaState.move_to_word_end^[st.get_count] ta, st.reset_pending⟩
  else if k.ch = some '0' then
    ⟨ta.action_cursor_line_start, st.reset_pending⟩
  else if k.ch = some '$' then
    ⟨ta.action_cursor_line_end, st.reset_pending⟩
  else if k.ch = some '^' then
    let ta := ta.action_cursor_line_start
    let r := ta.cursor.1
    let ta :=
      match (ta.getLine r).findIdx? (fun ch => !ch.isWhitespace) with
      | some i => ta.move_cursor (r, i)
      | none => ta
    ⟨ta, st.reset_pending⟩
  else if k.ch = some 'g' then
    ⟨ta, { st with pending_g := true }⟩
  else if k.ch = some 'G' then
    ⟨ta.move_cursor ta.docEnd, st.reset_pending⟩
  -- Character motions
  else if k.ch = some 'f' ∨ k.ch = some 'F' ∨ k.ch = some 't' ∨ k.ch = some 'T' then
    ⟨ta, { st with pending_motion := k.ch }⟩
  -- Operators (d, c, y)
  else if k.ch = some 'd' ∨ k.ch = some 'c' ∨ k.ch = some 'y' then
    match k.ch with
    | some c =>
      if st.pending_operator = some c then
        let e2 := Engine.execute_line_operator ⟨ta, st⟩ c
        ⟨e2.ta, e2.st.reset_pending⟩
      else ⟨ta, { st with pending_operator := some c }⟩
    | none => ⟨ta, st.reset_pending⟩
  else match st.pending_operator with
  -- Immediate operators with pending operator
  | some op =>
    if k.ch = some 'w' then
      let e2 := Engine.execute_operator_motion ⟨ta, st⟩ op "word_right".data
      ⟨e2.ta, e2.st.reset_pending⟩
    else if k.ch = some 'b' then
      let e2 := Engine.execute_operator_motion ⟨ta, st⟩ op "word_left".data
      ⟨e2.ta, e2.st.reset_pending⟩
    else if k.ch = some '$' then
      let e2 := Engine.execute_operator_motion ⟨ta, st⟩ op "line_end".data
      ⟨e2.ta, e2.st.reset_pending⟩
    else if k.ch = some '0' then
      let e2 := Engine.execute_operator_motion ⟨ta, st⟩ op "line_start".data
      ⟨e2.ta, e2.st.reset_pending⟩
    -- Unknown motion - cancel
    else ⟨ta, st.reset_pending⟩
  | none =>
  -- Standalone editing commands
  if k.ch = some 'x' then
    ⟨TextAreaState.action_delete_right^[st.get_count] ta,
     { st with last_change := some ["x".data] }.reset_pending⟩
  else if k.ch = some 'X' then
    ⟨TextAreaState.action_delete_left^[st.get_count] ta,
     { st with last_change := some ["X".data] }.reset_pending⟩
  else if k.ch = some 'D' then
    ⟨ta.action_delete_to_end_of_line, { st with last_change := some ["D".data] }.reset_pending⟩
  else if k.ch = some 'C' then
    ⟨ta.action_delete_to_end_of_line,
     { st with mode := .INSERT, last_change := some ["C".data] }.reset_pending⟩
  else if k.ch = some 's' then
    ⟨ta.action_delete_right,
     { st with mode := .INSERT, last_change := some ["s".data] }.reset_pending⟩
  else if k.ch = some 'S' then
    ⟨ta.action_cursor_line_start.action_delete_line,
     { st with mode := .INSERT, last_change := some ["S".data] }.reset_pending⟩
  -- Paste
  else if k.ch = some 'p' then
    if st.yank_buffer ≠ [] then
      let (r, c) := ta.cursor
      let newCol := min (c + 1) (ta.getLine r).length
      let ta := (ta.move_cursor (r, newCol)).insertText st.yank_buffer
      ⟨ta, st.reset_pending⟩
    else ⟨ta, st.reset_pending⟩
  else if k.ch = some 'P' then
    if st.yank_buffer ≠ [] then ⟨ta.insertText st.yank_buffer, st.reset_pending⟩
    else ⟨ta, st.reset_pending⟩
  -- Undo/redo
  else if k.ch = some 'u' then
    ⟨ta.action_undo, st.reset_pending⟩
  else if k.key = "ctrl+r" then
    ⟨ta.action_redo, st.reset_pending⟩
  -- Repeat last change
  else if k.ch = some '.' then
    match st.last_change with
    | some change =>
      let e2 := Engine.replay_change ⟨ta, st⟩ change
      ⟨e2.ta, e2.st.reset_pending⟩
    | none => ⟨ta, st.reset_pending⟩
  -- Join lines
  else if k.ch = some 'J' then
    let r := ta.cursor.1
    if r < ta.lines.length - 1 then
      let ta := ((ta.action_cursor_line_end).action_delete_right).insertText [' ']
      ⟨ta, st.reset_pending⟩
    else ⟨ta, st.reset_pending⟩
  -- Replace single character
  else if k.ch = some 'r' then
    ⟨ta, { st with pending_motion := some 'r' }⟩
  else ⟨ta, st.reset_pending⟩

/-- `_handle_visual_key`: handle keys in VISUAL mode (always consumed). -/
def handle_visual_key (e : Engine) (k : KeyEvent) : Engine :=
  let ta := e.ta
  let st := e.st
  -- Get current selection start
  let start := ta.selStart
  -- Navigation extends selection
  if k.ch = some 'h' ∨ k.key = "left" then
    let ta := ta.action_cursor_left
    ⟨ta.setSelection start ta.cursor, st⟩
  else if k.ch = some 'l' ∨ k.key = "right" then
    let ta := ta.action_cursor_right
    ⟨ta.setSelection start ta.cursor, st⟩
  else if k.ch = some 'j' ∨ k.key = "down" then
    let ta := ta.action_cursor_down
    ⟨ta.setSelection start ta.cursor, st⟩
  else if k.ch = some 'k' ∨ k.key = "up" then
    let ta := ta.action_cursor_up
    ⟨ta.setSelection start ta.cursor, st⟩
  else if k.ch = some 'w' then
    let ta := ta.action_cursor_word_right
    ⟨ta.setSelection start ta.cursor, st⟩
  else if k.ch = some 'b' then
    let ta := ta.action_cursor_word_left
    ⟨ta.setSelection start ta.cursor, st⟩
  else if k.ch = some '$' then
    let ta := ta.action_cursor_line_end
    ⟨ta.setSelection start ta.cursor, st⟩
  else if k.ch = some '0' then
    let ta := ta.action_cursor_line_start
    ⟨ta.setSelection start ta.cursor, st⟩
  else
    -- Get end for operations
    let stop := ta.selEnd
    -- Operators on selection
    if k.ch = some 'd' ∨ k.ch = some 'x' then
      let sel := ta.selectedText
      let ta := ta.deleteRange start stop
      ⟨ta, { st with yank_buffer := sel, mode := .NORMAL }.reset_pending⟩
    else if k.ch = some 'c' then
      let sel := ta.selectedText
      let ta := ta.deleteRange start stop
      ⟨ta, { st with yank_buffer := sel, mode := .INSERT }.reset_pending⟩
    else if k.ch = some 'y' then
      let sel := ta.selectedText
      let ta := (ta.setSelection start start).move_cursor start
      ⟨ta, { st with yank_buffer := sel, mode := .NORMAL }.reset_pending⟩
    else ⟨ta, st⟩

/-- `handle_key`: handle a key press in vi-mode; returns the new engine
state and whether the key was consumed. -/
def handle_key (e : Engine) (k : KeyEvent) : Engine × Bool :=
  match e.st.mode with
  -- INSERT mode - only intercept Escape
  | .INSERT =>
    if k.key = "escape" then
      let st := { e.st with mode := ViMode.NORMAL }.reset_pending
      let (r, c) := e.ta.cursor
      let ta := if c > 0 then e.ta.move_cursor (r, c - 1) else e.ta
      (⟨ta, st⟩, true)
    else (e, false)
  -- VISUAL mode
  | .VISUAL =>
    if k.key = "escape" then
      let loc := e.ta.cursor
      (⟨e.ta.setSelection loc loc, { e.st with mode := ViMode.NORMAL }.reset_pending⟩, true)
    else (handle_visual_key e k, true)
  -- NORMAL mode
  | .NORMAL => (handle_normal_key e k, true)

/-- Run a sequence of key events through the engine. -/
def keyRun (e : Engine) (ks : List KeyEvent) : Engine :=
  ks.foldl (fun e k => (handle_key e k).1) e

/-- The key event for pressing a printable character key. -/
def charKey (c : Char) : KeyEvent := ⟨c.toString, some c⟩

/-- An engine over the given text, in NORMAL mode, cursor at (0, 0),
with empty register and no recorded change. -/
def initNormal (s : Str) : Engine :=
  ⟨⟨splitNL s, (0, 0), (0, 0), [], []⟩, { mode := .NORMAL }⟩

/-- A key event as the host actually delivers them: when a printable
character is present, the key identifier is not one of the named
control keys the engine inspects. -/
abbrev wfKey (k : KeyEvent) : Prop :=
  k.ch.isSome → ¬ k.key ∈ (["left", "right", "down", "up", "ctrl+r"] : List String)

/-- The pending-composition fields all hold their default cleared values. -/
abbrev pendingCleared (st : ViState) : Prop :=
  st.pending_operator = none ∧ st.pending_count = []
    ∧ st.pending_motion = none ∧ st.pending_g = false

/-- The dispatches that continue a composition instead of completing,
cancelling or no-opping a command: count-digit accumulation, bare `g`,
the character-awaiting keys `f/F/t/T` (and `r` outside an operator),
and an operator key that does not double an identical pending one. -/
abbrev continuesComposition (st : ViState) (k : KeyEvent) : Prop :=
  st.mode = ViMode.NORMAL ∧ st.pending_g = false ∧ st.pending_motion = none
    ∧ (digitCond st k.ch = true
       ∨ k.ch = some 'g'
       ∨ k.ch = some 'f' ∨ k.ch = some 'F' ∨ k.ch = some 't' ∨ k.ch = some 'T'
       ∨ ((k.ch = some 'd' ∨ k.ch = some 'c' ∨ k.ch = some 'y')
            ∧ st.pending_operator ≠ k.ch)
       ∨ (k.ch = some 'r' ∧ st.pending_operator = none))

/-- The buffer step a simple motion key performs once (the loop body of
the corresponding navigation branch of `_handle_normal_key`). -/
def motionStep : Char → TextAreaState → TextAreaState
  | 'h' => TextAreaState.action_cursor_left
  | 'l' => TextAreaState.action_cursor_right
  | 'j' => TextAreaState.action_cursor_down
  | 'k' => TextAreaState.action_cursor_up
  | 'w' => TextAreaState.action_cursor_word_right
  | 'b' => TextAreaState.action_cursor_word_left
  | 'e' => TextAreaState.move_to_word_end
  | _ => id

/-- The dispatches that record a LastChange: the standalone edits
`x/X/D/C/s/S` (with no operator pending) and the doubled operators
`dd`/`cc`. -/
abbrev recordsChange (st : ViState) (k : KeyEvent) : Prop :=
  st.mode = ViMode.NORMAL ∧ st.pending_g = false ∧ st.pending_motion = none
    ∧ ((st.pending_operator = none
          ∧ (k.ch = some 'x' ∨ k.ch = some 'X' ∨ k.ch = some 'D' ∨ k.ch = some 'C'
             ∨ k.ch = some 's' ∨ k.ch = some 'S'))
       ∨ (st.pending_operator = some 'd' ∧ k.ch = some 'd')
       ∨ (st.pending_operator = some 'c' ∧ k.ch = some 'c'))

/-- The LastChange value a recording dispatch stores. -/
def recordedChange (st : ViState) (k : KeyEvent) : Option (List Str) :=
  if st.pending_operator = some 'd' ∧ k.ch = some 'd' then some ["dd".data]
  else if st.pending_operator = some 'c' ∧ k.ch = some 'c' then some ["cc".data]
  else
    match k.ch with
    | some 'x' => some ["x".data]
    | some 'X' => some ["X".data]
    | some 'D' => some ["D".data]
    | some 'C' => some ["C".data]
    | some 's' => some ["s".data]
    | some 'S' => some ["S".data]
    | _ => none

/-- A named (non-printable) key event. -/
def namedKey (s : String) : KeyEvent := ⟨s, none⟩

/-- The key events of the engine's grammar: printable character keys
(whose key identifier is the character itself) plus the named control
keys the handlers inspect. -/
abbrev grammarKey (k : KeyEvent) : Prop :=
  match k.ch with
  | some c => k.key = c.toString
  | none =>
    k.key = "escape" ∨ k.key = "left" ∨ k.key = "right" ∨ k.key = "down"
      ∨ k.key = "up" ∨ k.key = "ctrl+r"

/-- The pending-composition fields of a state, as one tuple. -/
def pendingOf (st : ViState) : Option Char × Str × Option Char × Bool :=
  (st.pending_operator, st.pending_count, st.pending_motion, st.pending_g)

/-- The cleared value of the pending-composition fields. -/
def clearedPending : Option Char × Str × Option Char × Bool := (none, [], none, false)

/-- Mirror of a dispatch's effect on the buffer-independent parts of the
vi-state: the pending-composition fields and LastChange.  The branch
conditions replicate `handle_key`/`_handle_normal_key`/
`_handle_visual_key` exactly; the values are what each branch stores. -/
def stAfter (st : ViState) (k : KeyEvent) :
    (Option Char × Str × Option Char × Bool) × Option (List Str) :=
  match st.mode with
  | .INSERT =>
    if k.key = "escape" then (clearedPending, st.last_change)
    else (pendingOf st, st.last_change)
  | .VISUAL =>
    if k.key = "escape" then (clearedPending, st.last_change)
    else if k.ch = some 'h' ∨ k.key = "left" then (pendingOf st, st.last_change)
    else if k.ch = some 'l' ∨ k.key = "right" then (pendingOf st, st.last_change)
    else if k.ch = some 'j' ∨ k.key = "down" then (pendingOf st, st.last_change)
    else if k.ch = some 'k' ∨ k.key = "up" then (pendingOf st, st.last_change)
    else if k.ch = some 'w' then (pendingOf st, st.last_change)
    else if k.ch = some 'b' then (pendingOf st, st.last_change)
    else if k.ch = some '$' then (pendingOf st, st.last_change)
    else if k.ch = some '0' then (pendingOf st, st.last_change)
    else if k.ch = some 'd' ∨ k.ch = some 'x' then (clearedPending, st.last_change)
    else if k.ch = some 'c' then (clearedPending, st.last_change)
    else if k.ch = some 'y' then (clearedPending, st.last_change)
    else (pendingOf st, st.last_change)
  | .NORMAL =>
    if st.pending_g then (clearedPending, st.last_change)
    else
      match st.pending_motion with
      | some _ => (clearedPending, st.last_change)
      | none =>
        if digitCond st k.ch then
          ((st.pending_operator, st.pending_count ++ k.ch.toList,
              st.pending_motion, st.pending_g), st.last_change)
        else if k.ch = some 'i' then (clearedPending, st.last_change)
        else if k.ch = some 'I' then (clearedPending, st.last_change)
        else if k.ch = some 'a' then (clearedPending, st.last_change)
        else if k.ch = some 'A' then (clearedPending, st.last_change)
        else if k.ch = some 'o' then (clearedPending, st.last_change)
        else if k.ch = some 'O' then (clearedPending, st.last_change)
        else if k.ch = some 'v' then (clearedPending, st.last_change)
        else if k.ch = some 'h' ∨ k.key = "left" then (clearedPending, st.last_change)
        else if k.ch = some 'l' ∨ k.key = "right" then (clearedPending, st.last_change)
        else if k.ch = some 'j' ∨ k.key = "down" then (clearedPending, st.last_change)
        else if k.ch = some 'k' ∨ k.key = "up" then (clearedPending, st.last_change)
        else if k.ch = some 'w' then (clearedPending, st.last_change)
        else if k.ch = some 'b' then (clearedPending, st.last_change)
        else if k.ch = some 'e' then (clearedPending, st.last_change)
        else if k.ch = some '0' then (clearedPending, st.last_change)
        else if k.ch = some '$' then (clearedPending, st.last_change)
        else if k.ch = some '^' then (clearedPending, st.last_change)
        else if k.ch = some 'g' then
          ((st.pending_operator, st.pending_count, st.pending_motion, true), st.last_change)
        else if k.ch = some 'G' then (clearedPending, st.last_change)
        else if k.ch = some 'f' ∨ k.ch = some 'F' ∨ k.ch = some 't' ∨ k.ch = some 'T' then
          ((st.pending_operator, st.pending_count, k.ch, st.pending_g), st.last_change)
        else if k.ch = some 'd' ∨ k.ch = some 'c' ∨ k.ch = some 'y' then
          match k.ch with
          | some c =>
            if st.pending_operator = some c then
              if c = 'd' then (clearedPending, some ["dd".data])
              else if c = 'c' then (clearedPending, some ["cc".data])
              else (clearedPending, st.last_change)
            else ((some c, st.pending_count, st.pending_motion, st.pending_g), st.last_change)
          | none => (clearedPending, st.last_change)
        else
          match st.pending_operator with
          | some _ => (clearedPending, st.last_change)
          | none =>
            if k.ch = some 'x' then (clearedPending, some ["x".data])
            else if k.ch = some 'X' then (clearedPending, some ["X".data])
            else if k.ch = some 'D' then (clearedPending, some ["D".data])
            else if k.ch = some 'C' then (clearedPending, some ["C".data])
            else if k.ch = some 's' then (clearedPending, some ["s".data])
            else if k.ch = some 'S' then (clearedPending, some ["S".data])
            else if k.ch = some 'p' then (clearedPending, st.last_change)
            else if k.ch = some 'P' then (clearedPending, st.last_change)
            else if k.ch = some 'u' then (clearedPending, st.last_change)
            else if k.key = "ctrl+r" then (clearedPending, st.last_change)
            else if k.ch = some '.' then (clearedPending, st.last_change)
            else if k.ch = some 'J' then (clearedPending, st.last_change)
            else if k.ch = some 'r' then
              ((st.pending_operator, st.pending_count, some 'r', st.pending_g), st.last_change)
            else (clearedPending, st.last_change)


/-- C1: with an operator pending, the motion keys `w/b/$/0` never reach
the operator branch of `_handle_normal_key`: the navigation branches
match the same characters first, so `d`,`w` on `"hello world"` at (0,0)
only moves the cursor to (0,6), leaving the buffer `"hello world"` and
the register empty — while the (unreachable) operator executor
`_execute_operator_motion 'd' "word_right"` produces exactly the
specified result: buffer `"world"`, cursor (0,0), register `"hello "`,
LastChange `("d", "word_right")`. -/
theorem c1_operator_motion_dispatch_dead :
    (keyRun (initNormal "hello world".data) [charKey 'd', charKey 'w']).ta.lines
        = ["hello world".data]
    ∧ (keyRun (initNormal "hello world".data) [charKey 'd', charKey 'w']).st.yank_buffer = []
    ∧ (keyRun (initNormal "hello world".data) [charKey 'd', charKey 'w']).ta.cursor = (0, 6)
    ∧ (Engine.execute_operator_motion (initNormal "hello world".data) 'd'
        "word_right".data).ta.lines = ["world".data]
    ∧ (Engine.execute_operator_motion (initNormal "hello world".data) 'd'
        "word_right".data).st.yank_buffer = "hello ".data
    ∧ (Engine.execute_operator_motion (initNormal "hello world".data) 'd'
        "word_right".data).ta.cursor = (0, 0)
    ∧ (Engine.execute_operator_motion (initNormal "hello world".data) 'd'
        "word_right".data).st.last_change = some ["d".data, "word_right".data] := by
  decide

/-- C3 counterexample: on buffer `"ab\ncd"`, `yy` then `j` then `p` yields
lines `["ab", "cab", "d"]` — the paste splits the cursor line at column
cursor+1 instead of duplicating the yanked line directly below it
(which would give `["ab", "cd", "ab"]`). -/
theorem c3_paste_not_directly_below :
    (keyRun (initNormal "ab\ncd".data)
        [charKey 'y', charKey 'y', charKey 'j', charKey 'p']).ta.lines
      = ["ab".data, "cab".data, "d".data]
    ∧ (keyRun (initNormal "ab\ncd".data)
        [charKey 'y', charKey 'y', charKey 'j', charKey 'p']).ta.lines
      ≠ ["ab".data, "cd".data, "ab".data] := by
  decide

/-- C4 counterexample: after `x` (LastChange = `("x",)`), the visual-mode
delete `v`,`l`,`d` mutates the buffer but leaves LastChange unchanged:
visual-mode operators never record a change. -/
theorem c4_visual_delete_skips_last_change :
    (keyRun (initNormal "ab".data)
        [charKey 'x', charKey 'v', charKey 'l', charKey 'd']).ta.lines
      ≠ (keyRun (initNormal "ab".data) [charKey 'x', charKey 'v', charKey 'l']).ta.lines
    ∧ (keyRun (initNormal "ab".data)
        [charKey 'x', charKey 'v', charKey 'l', charKey 'd']).st.last_change
      = (keyRun (initNormal "ab".data) [charKey 'x', charKey 'v', charKey 'l']).st.last_change
    ∧ (keyRun (initNormal "ab".data)
        [charKey 'x', charKey 'v', charKey 'l', charKey 'd']).st.last_change
      = some ["x".data] := by
  decide

/-- C6 counterexample: in Normal mode with empty pending count but a
pending `f` character-search (reachable by pressing `f`), pressing `0`
does not move the cursor to line start: on buffer `"x0"` it executes
the search `f0` and moves the cursor to (0,1). -/
theorem c6_zero_after_pending_motion :
    (keyRun (initNormal "x0".data) [charKey 'f']).st.pending_count = []
    ∧ (keyRun (initNormal "x0".data) [charKey 'f', charKey '0']).ta.cursor = (0, 1)
    ∧ (keyRun (initNormal "x0".data) [charKey 'f', charKey '0']).ta.cursor ≠ (0, 0) := by
  decide

/-- C8 counterexample: on buffer `"abcdef"` at (0,0), the keys
`v`,`l`,`l`,`y` leave the register `"ab"`, not `"abc"`: the selection
end (the cursor) is exclusive in the buffer's text-range contract. -/
theorem c8_visual_yank_register_exclusive :
    (keyRun (initNormal "abcdef".data)
        [charKey 'v', charKey 'l', charKey 'l', charKey 'y']).st.yank_buffer = "ab".data
    ∧ "ab".data ≠ "abc".data := by
  decide

/-- C10: an executed character-search motion never moves the cursor
backwards (for `f`/`t`) or forwards (for `F`/`T`), and never changes the
row; `t` whose match is at the adjacent column leaves the cursor in
place. -/
theorem c10_char_search_clamp (e : Engine) (k : KeyEvent) (m c : Char)
    (hmode : e.st.mode = .NORMAL) (hg : e.st.pending_g = false)
    (hpm : e.st.pending_motion = some m) (hch : k.ch = some c) :
    ((m = 'f' ∨ m = 't') →
        ((handle_key e k).1.ta.cursor.1 = e.ta.cursor.1
          ∧ e.ta.cursor.2 ≤ (handle_key e k).1.ta.cursor.2))
    ∧ ((m = 'F' ∨ m = 'T') →
        ((handle_key e k).1.ta.cursor.1 = e.ta.cursor.1
          ∧ (handle_key e k).1.ta.cursor.2 ≤ e.ta.cursor.2))
    ∧ (m = 't' →
        findFrom (e.ta.getLine e.ta.cursor.1) (e.ta.cursor.2 + 1) c
            = some (e.ta.cursor.2 + 1) →
        (handle_key e k).1.ta.cursor = e.ta.cursor) := by
  obtain ⟨ta, st⟩ := e
  obtain ⟨mo, po, pc, pm, pg, lc, yb⟩ := st
  obtain ⟨key, ch⟩ := k
  simp only at hmode hg hpm hch
  subst hmode hg hpm hch
  obtain ⟨lines, ss, se, us, rs⟩ := ta
  obtain ⟨r, c0⟩ := se
  simp only [handle_key, handle_normal_key, Engine.execute_char_motion,
    TextAreaState.cursor, TextAreaState.move_cursor, Bool.false_eq_true, if_false]
  refine ⟨?_, ?_, ?_⟩
  · rintro (rfl | rfl) <;>
      simp only [reduceIte, reduceCtorEq, or_true, true_or] <;>
      rcases hfind : findFrom (TextAreaState.getLine ⟨lines, ss, (r, c0), us, rs⟩ r) (c0 + 1) c
        with _ | idx <;>
      simp [hfind, TextAreaState.getLine, le_max_left]
  · rintro (rfl | rfl) <;>
      rcases hfind : rfindBefore (TextAreaState.getLine ⟨lines, ss, (r, c0), us, rs⟩ r) c0 c
        with _ | idx <;>
      simp [hfind, TextAreaState.getLine, min_le_left]
  · rintro rfl hfind
    simp only [TextAreaState.cursor, TextAreaState.getLine] at hfind ⊢
    rw [hfind]
    simp [TextAreaState.move_cursor]

/-- C10 witness: pending `t` on buffer `"xab"` at (0,0), target `'b'`. -/
theorem c10_char_search_clamp_witness :
    (keyRun (initNormal "xab".data) [charKey 't']).st.mode = ViMode.NORMAL
    ∧ (keyRun (initNormal "xab".data) [charKey 't']).st.pending_g = false
    ∧ (keyRun (initNormal "xab".data) [charKey 't']).st.pending_motion = some 't'
    ∧ (charKey 'b').ch = some 'b'
    ∧ ((('t' : Char) = 'f' ∨ ('t' : Char) = 't') →
        ((handle_key (keyRun (initNormal "xab".data) [charKey 't']) (charKey 'b')).1.ta.cursor.1
            = (keyRun (initNormal "xab".data) [charKey 't']).ta.cursor.1
          ∧ (keyRun (initNormal "xab".data) [charKey 't']).ta.cursor.2
            ≤ (handle_key (keyRun (initNormal "xab".data) [charKey 't'])
                (charKey 'b')).1.ta.cursor.2)) :=
  ⟨by decide, by decide, by decide, by decide,
   (c10_char_search_clamp (keyRun (initNormal "xab".data) [charKey 't']) (charKey 'b') 't' 'b'
      (by decide) (by decide) (by decide) (by decide)).1⟩

set_option maxHeartbeats 1000000 in
/-- A forward character search (`f`/`t`) with no occurrence of the
target after the cursor leaves the engine unchanged. -/
theorem execute_char_motion_forward_miss (e : Engine) (m c : Char)
    (hm : m = 'f' ∨ m = 't')
    (hfind : findFrom (e.ta.getLine e.ta.cursor.1) (e.ta.cursor.2 + 1) c = none) :
    Engine.execute_char_motion e m c = e := by
  obtain ⟨ta, st⟩ := e
  obtain ⟨lines, ss, se, us, rs⟩ := ta
  obtain ⟨r, c0⟩ := se
  simp only [TextAreaState.cursor, TextAreaState.getLine] at hfind
  rcases hm with rfl | rfl <;>
  · simp only [Engine.execute_char_motion, TextAreaState.cursor, TextAreaState.getLine]
    rw [hfind]
    rfl

set_option maxHeartbeats 1000000 in
/-- A backward character search (`F`/`T`) with no occurrence of the
target before the cursor leaves the engine unchanged. -/
theorem execute_char_motion_backward_miss (e : Engine) (m c : Char)
    (hm : m = 'F' ∨ m = 'T')
    (hfind : rfindBefore (e.ta.getLine e.ta.cursor.1) e.ta.cursor.2 c = none) :
    Engine.execute_char_motion e m c = e := by
  obtain ⟨ta, st⟩ := e
  obtain ⟨lines, ss, se, us, rs⟩ := ta
  obtain ⟨r, c0⟩ := se
  simp only [TextAreaState.cursor, TextAreaState.getLine] at hfind
  rcases hm with rfl | rfl <;>
  · simp only [Engine.execute_char_motion, TextAreaState.cursor, TextAreaState.getLine]
    rw [hfind]
    rfl

/-- C9: a character search with no target in the searched part of the
line, a paste on an empty register, and a repeat with no recorded
change each leave the whole engine unchanged except that the pending
fields are cleared exactly as after a completed command. -/
theorem c9_no_target_noop :
    (∀ (e : Engine) (k : KeyEvent) (m c : Char),
      e.st.mode = ViMode.NORMAL → e.st.pending_g = false →
      e.st.pending_motion = some m → k.ch = some c →
      (((m = 'f' ∨ m = 't') →
          findFrom (e.ta.getLine e.ta.cursor.1) (e.ta.cursor.2 + 1) c = none →
          (handle_key e k).1 = ⟨e.ta, e.st.reset_pending⟩)
        ∧ ((m = 'F' ∨ m = 'T') →
          rfindBefore (e.ta.getLine e.ta.cursor.1) e.ta.cursor.2 c = none →
          (handle_key e k).1 = ⟨e.ta, e.st.reset_pending⟩)))
    ∧ (∀ e : Engine,
      e.st.mode = ViMode.NORMAL → e.st.pending_g = false →
      e.st.pending_motion = none → e.st.pending_operator = none →
      e.st.yank_buffer = [] →
      (handle_key e (charKey 'p')).1 = ⟨e.ta, e.st.reset_pending⟩
        ∧ (handle_key e (charKey 'P')).1 = ⟨e.ta, e.st.reset_pending⟩)
    ∧ (∀ e : Engine,
      e.st.mode = ViMode.NORMAL → e.st.pending_g = false →
      e.st.pending_motion = none → e.st.pending_operator = none →
      e.st.last_change = none →
      (handle_key e (charKey '.')).1 = ⟨e.ta, e.st.reset_pending⟩) := by
  refine ⟨?_, ?_, ?_⟩
  · rintro ⟨ta, st⟩ ⟨key, ch⟩ m c hmode hg hpm hch
    obtain ⟨mo, po, pc, pm, pg, lc, yb⟩ := st
    simp only at hmode hg hpm hch
    subst hmode hg hpm hch
    constructor
    · rintro hm hfind
      have h1 : (handle_key ⟨ta, ⟨ViMode.NORMAL, po, pc, some m, false, lc, yb⟩⟩
            ⟨key, some c⟩).1
          = ⟨(Engine.execute_char_motion
                ⟨ta, ⟨ViMode.NORMAL, po, pc, none, false, lc, yb⟩⟩ m c).ta,
             (Engine.execute_char_motion
                ⟨ta, ⟨ViMode.NORMAL, po, pc, none, false, lc, yb⟩⟩ m c).st.reset_pending⟩ :=
        rfl
      have h2 := execute_char_motion_forward_miss
          ⟨ta, ⟨ViMode.NORMAL, po, pc, none, false, lc, yb⟩⟩ m c hm (by exact hfind)
      rw [h1, h2]
      rfl
    · rintro hm hfind
      have h1 : (handle_key ⟨ta, ⟨ViMode.NORMAL, po, pc, some m, false, lc, yb⟩⟩
            ⟨key, some c⟩).1
          = ⟨(Engine.execute_char_motion
                ⟨ta, ⟨ViMode.NORMAL, po, pc, none, false, lc, yb⟩⟩ m c).ta,
             (Engine.execute_char_motion
                ⟨ta, ⟨ViMode.NORMAL, po, pc, none, false, lc, yb⟩⟩ m c).st.reset_pending⟩ :=
        rfl
      have h2 := execute_char_motion_backward_miss
          ⟨ta, ⟨ViMode.NORMAL, po, pc, none, false, lc, yb⟩⟩ m c hm (by exact hfind)
      rw [h1, h2]
      rfl
  · rintro ⟨ta, st⟩ hmode hg hpm hpo hyb
    obtain ⟨mo, po, pc, pm, pg, lc, yb⟩ := st
    simp only at hmode hg hpm hpo hyb
    subst hmode hg hpm hpo hyb
    exact ⟨rfl, rfl⟩
  · rintro ⟨ta, st⟩ hmode hg hpm hpo hlc
    obtain ⟨mo, po, pc, pm, pg, lc, yb⟩ := st
    simp only at hmode hg hpm hpo hlc
    subst hmode hg hpm hpo hlc
    rfl

/-- C9 witness: `f` then `q` on `"abc"` (no `q` after the cursor), and
`p` / `.` on a fresh engine with empty register and no recorded change. -/
theorem c9_no_target_noop_witness :
    (keyRun (initNormal "abc".data) [charKey 'f']).st.pending_motion = some 'f'
    ∧ findFrom ((keyRun (initNormal "abc".data) [charKey 'f']).ta.getLine
          (keyRun (initNormal "abc".data) [charKey 'f']).ta.cursor.1)
        ((keyRun (initNormal "abc".data) [charKey 'f']).ta.cursor.2 + 1) 'q' = none
    ∧ (handle_key (keyRun (initNormal "abc".data) [charKey 'f']) (charKey 'q')).1
        = ⟨(keyRun (initNormal "abc".data) [charKey 'f']).ta,
           (keyRun (initNormal "abc".data) [charKey 'f']).st.reset_pending⟩
    ∧ (initNormal "abc".data).st.yank_buffer = []
    ∧ (handle_key (initNormal "abc".data) (charKey 'p')).1
        = ⟨(initNormal "abc".data).ta, (initNormal "abc".data).st.reset_pending⟩
    ∧ (initNormal "abc".data).st.last_change = none
    ∧ (handle_key (initNormal "abc".data) (charKey '.')).1
        = ⟨(initNormal "abc".data).ta, (initNormal "abc".data).st.reset_pending⟩ :=
  ⟨by decide, by decide,
   (c9_no_target_noop.1 (keyRun (initNormal "abc".data) [charKey 'f']) (charKey 'q') 'f' 'q'
      (by decide) (by decide) (by decide) (by decide)).1 (Or.inl rfl) (by decide),
   by decide,
   (c9_no_target_noop.2.1 (initNormal "abc".data) (by decide) (by decide) (by decide)
      (by decide) (by decide)).1,
   by decide,
   c9_no_target_noop.2.2 (initNormal "abc".data) (by decide) (by decide) (by decide)
      (by decide) (by decide)⟩

set_option maxHeartbeats 1000000 in
/-- Replaying a recorded change leaves `last_change` with the value it
already had: the non-operator replays never write it, and the
line/motion-operator replays rewrite the very value being replayed. -/
theorem replay_change_preserves_last_change (e : Engine) (ch : List Str)
    (h : e.st.last_change = some ch) :
    (Engine.replay_change e ch).st.last_change = e.st.last_change := by
  obtain ⟨ta, st⟩ := e
  simp only at h
  unfold Engine.replay_change
  split_ifs with h1 h2 h3 h4 h5 h6 h7 h8
  · rfl
  · rfl
  · rfl
  · rfl
  · rfl
  · rfl
  · subst h7
    simp only [Engine.execute_line_operator]
    simp [h]
  · subst h8
    simp only [Engine.execute_line_operator]
    simp [h]
  · rcases ch with _ | ⟨a, _ | ⟨b, _ | ⟨x, xs⟩⟩⟩
    · rfl
    · rfl
    · by_cases ha : a = "d".data
      · subst ha
        simp only [Engine.execute_operator_motion]
        simp [h]
      · by_cases hb : a = "c".data
        · subst hb
          simp only [Engine.execute_operator_motion]
          simp [h, ha]
        · simp [ha, hb]
    · rfl

set_option maxHeartbeats 1000000 in
/-- C5: in Normal mode with no composition pending, `.` replays the
recorded change via `_replay_change` (which re-resolves motions from
the current cursor), leaves LastChange with the same value (so repeated
`.` repeats the original edit), is a no-op when nothing is recorded,
and right after `x` deletes exactly one more character at the current
cursor. -/
theorem c5_dot_repeat (e : Engine)
    (hmode : e.st.mode = ViMode.NORMAL) (hg : e.st.pending_g = false)
    (hpm : e.st.pending_motion = none) (hpo : e.st.pending_operator = none) :
    (handle_key e (charKey '.')).1.st.last_change = e.st.last_change
    ∧ (e.st.last_change = none →
        (handle_key e (charKey '.')).1 = ⟨e.ta, e.st.reset_pending⟩)
    ∧ (∀ ch, e.st.last_change = some ch →
        (handle_key e (charKey '.')).1
          = ⟨(Engine.replay_change e ch).ta, (Engine.replay_change e ch).st.reset_pending⟩)
    ∧ (e.st.last_change = some ["x".data] →
        (handle_key e (charKey '.')).1.ta = e.ta.action_delete_right) := by
  obtain ⟨ta, st⟩ := e
  obtain ⟨mo, po, pc, pm, pg, lc, yb⟩ := st
  simp only at hmode hg hpm hpo
  subst hmode hg hpm hpo
  rcases lc with _ | ch
  · refine ⟨rfl, fun _ => rfl, fun ch h => ?_, fun h => ?_⟩ <;> cases h
  · have hstep : (handle_key ⟨ta, ⟨ViMode.NORMAL, none, pc, none, false, some ch, yb⟩⟩
          (charKey '.')).1
        = ⟨(Engine.replay_change
              ⟨ta, ⟨ViMode.NORMAL, none, pc, none, false, some ch, yb⟩⟩ ch).ta,
           (Engine.replay_change
              ⟨ta, ⟨ViMode.NORMAL, none, pc, none, false, some ch, yb⟩⟩ ch).st.reset_pending⟩ :=
      rfl
    refine ⟨?_, ?_, ?_, ?_⟩
    · rw [hstep]
      exact replay_change_preserves_last_change
        ⟨ta, ⟨ViMode.NORMAL, none, pc, none, false, some ch, yb⟩⟩ ch rfl
    · intro h; cases h
    · intro ch' h
      injection h with h
      subst h
      exact hstep
    · intro h
      injection h with h
      subst h
      rfl

/-- C5 witness: after `x` on `"abcde"`, pressing `.` deletes one more
character and preserves LastChange. -/
theorem c5_dot_repeat_witness :
    (keyRun (initNormal "abcde".data) [charKey 'x']).st.mode = ViMode.NORMAL
    ∧ (keyRun (initNormal "abcde".data) [charKey 'x']).st.last_change = some ["x".data]
    ∧ (handle_key (keyRun (initNormal "abcde".data) [charKey 'x']) (charKey '.')).1.st.last_change
        = (keyRun (initNormal "abcde".data) [charKey 'x']).st.last_change
    ∧ ((keyRun (initNormal "abcde".data) [charKey 'x']).st.last_change = some ["x".data] →
        (handle_key (keyRun (initNormal "abcde".data) [charKey 'x']) (charKey '.')).1.ta
          = (keyRun (initNormal "abcde".data) [charKey 'x']).ta.action_delete_right) :=
  ⟨by decide, by decide,
   (c5_dot_repeat (keyRun (initNormal "abcde".data) [charKey 'x'])
      (by decide) (by decide) (by decide) (by decide)).1,
   (c5_dot_repeat (keyRun (initNormal "abcde".data) [charKey 'x'])
      (by decide) (by decide) (by decide) (by decide)).2.2.2⟩

/-- C6 (amended): in Normal mode with no awaited character motion and no
pending `g`, `0` appends to a non-empty pending count (composition
continues, everything else untouched), and with an empty count moves
the cursor to line start and clears the pending state. -/
theorem c6_zero_count_resolution (e : Engine)
    (hmode : e.st.mode = ViMode.NORMAL) (hg : e.st.pending_g = false)
    (hpm : e.st.pending_motion = none) :
    (e.st.pending_count ≠ [] →
      (handle_key e (charKey '0')).1
        = ⟨e.ta, { e.st with pending_count := e.st.pending_count ++ ['0'] }⟩)
    ∧ (e.st.pending_count = [] →
      (handle_key e (charKey '0')).1 = ⟨e.ta.action_cursor_line_start, e.st.reset_pending⟩) := by
  obtain ⟨ta, st⟩ := e
  obtain ⟨mo, po, pc, pm, pg, lc, yb⟩ := st
  simp only at hmode hg hpm
  subst hmode hg hpm
  constructor
  · intro hne
    rcases pc with _ | ⟨d, pc'⟩
    · cases hne rfl
    · rfl
  · intro h0
    subst h0
    rfl

/-- C6 witness: with pending count `"3"`, `0` appends; with empty count,
`0` moves to line start. -/
theorem c6_zero_count_resolution_witness :
    (keyRun (initNormal "ab".data) [charKey '3']).st.mode = ViMode.NORMAL
    ∧ (keyRun (initNormal "ab".data) [charKey '3']).st.pending_count ≠ []
    ∧ (handle_key (keyRun (initNormal "ab".data) [charKey '3']) (charKey '0')).1
        = ⟨(keyRun (initNormal "ab".data) [charKey '3']).ta,
           { (keyRun (initNormal "ab".data) [charKey '3']).st with
              pending_count := (keyRun (initNormal "ab".data) [charKey '3']).st.pending_count
                ++ ['0'] }⟩ :=
  ⟨by decide, by decide,
   (c6_zero_count_resolution (keyRun (initNormal "ab".data) [charKey '3'])
      (by decide) (by decide) (by decide)).1 (by decide)⟩

/-- C8 (amended): in Visual mode, `y` copies the (order-normalized,
end-exclusive) selected text to the register without mutating the
buffer, collapses the selection onto its start, places the cursor
there, and returns to Normal mode with pending state cleared; on
`"abcdef"` the keys `v`,`l`,`l`,`y` leave the buffer unchanged, the
register `"ab"`, the cursor at (0,0) and the mode Normal. -/
theorem c8_visual_yank (e : Engine) (hmode : e.st.mode = ViMode.VISUAL) :
    (handle_key e (charKey 'y')).1.ta.lines = e.ta.lines
    ∧ (handle_key e (charKey 'y')).1.st.yank_buffer = e.ta.selectedText
    ∧ (handle_key e (charKey 'y')).1.ta.cursor = e.ta.selStart
    ∧ (handle_key e (charKey 'y')).1.st.mode = ViMode.NORMAL
    ∧ pendingCleared (handle_key e (charKey 'y')).1.st
    ∧ (keyRun (initNormal "abcdef".data)
        [charKey 'v', charKey 'l', charKey 'l', charKey 'y']).ta.lines = ["abcdef".data]
    ∧ (keyRun (initNormal "abcdef".data)
        [charKey 'v', charKey 'l', charKey 'l', charKey 'y']).st.yank_buffer = "ab".data
    ∧ (keyRun (initNormal "abcdef".data)
        [charKey 'v', charKey 'l', charKey 'l', charKey 'y']).ta.cursor = (0, 0)
    ∧ (keyRun (initNormal "abcdef".data)
        [charKey 'v', charKey 'l', charKey 'l', charKey 'y']).st.mode = ViMode.NORMAL := by
  obtain ⟨ta, st⟩ := e
  obtain ⟨mo, po, pc, pm, pg, lc, yb⟩ := st
  simp only at hmode
  subst hmode
  exact ⟨rfl, rfl, rfl, rfl, ⟨rfl, rfl, rfl, rfl⟩,
    by decide, by decide, by decide, by decide⟩

/-- C8 witness: the general visual-yank facts applied right after `v`
on `"abcdef"`. -/
theorem c8_visual_yank_witness :
    (keyRun (initNormal "abcdef".data) [charKey 'v']).st.mode = ViMode.VISUAL
    ∧ (handle_key (keyRun (initNormal "abcdef".data) [charKey 'v']) (charKey 'y')).1.ta.lines
        = (keyRun (initNormal "abcdef".data) [charKey 'v']).ta.lines :=
  ⟨by decide,
   (c8_visual_yank (keyRun (initNormal "abcdef".data) [charKey 'v']) (by decide)).1⟩

/-- Running a concatenation of key lists runs them in sequence. -/
theorem keyRun_append (e : Engine) (xs ys : List KeyEvent) :
    keyRun e (xs ++ ys) = keyRun (keyRun e xs) ys := by
  simp [keyRun, List.foldl_append]

/-- One press of a simple motion key from a state with no pending
operator/motion/`g` iterates the motion's buffer step `count` times and
clears the pending fields. -/
theorem motion_key_step (ta : TextAreaState) (pc : Str) (lc : Option (List Str)) (yb : Str)
    (m : Char) (hm : m ∈ (['h', 'l', 'j', 'k', 'w', 'b', 'e'] : List Char)) :
    (handle_key ⟨ta, ⟨ViMode.NORMAL, none, pc, none, false, lc, yb⟩⟩ (charKey m)).1
      = ⟨(motionStep m)^[(⟨ViMode.NORMAL, none, pc, none, false, lc, yb⟩ : ViState).get_count] ta,
         (⟨ViMode.NORMAL, none, pc, none, false, lc, yb⟩ : ViState).reset_pending⟩ := by
  fin_cases hm <;> rfl

/-- One press of a digit key appends the digit to the pending count and
changes nothing else (digit `0` only on a non-empty count). -/
theorem digit_key_step (ta : TextAreaState) (pc : Str) (lc : Option (List Str)) (yb : Str)
    (d : Char)
    (hd : d ∈ (['0', '1', '2', '3', '4', '5', '6', '7', '8', '9'] : List Char))
    (h0 : pc ≠ [] ∨ d ≠ '0') :
    (handle_key ⟨ta, ⟨ViMode.NORMAL, none, pc, none, false, lc, yb⟩⟩ (charKey d)).1
      = ⟨ta, ⟨ViMode.NORMAL, none, pc ++ [d], none, false, lc, yb⟩⟩ := by
  rcases pc with _ | ⟨p, rest⟩
  · have hd0 : d ≠ '0' := by
      rcases h0 with h | h
      · cases h rfl
      · exact h
    fin_cases hd
    · cases hd0 rfl
    all_goals rfl
  · fin_cases hd <;> rfl

/-- Typing a list of digit keys accumulates them onto the pending
count, leaving everything else untouched. -/
theorem digit_key_run (ds : List Char)
    (hds : ∀ d ∈ ds, d ∈ (['0', '1', '2', '3', '4', '5', '6', '7', '8', '9'] : List Char)) :
    ∀ (ta : TextAreaState) (pc : Str) (lc : Option (List Str)) (yb : Str),
      (pc ≠ [] ∨ ds.head? ≠ some '0') →
      keyRun ⟨ta, ⟨ViMode.NORMAL, none, pc, none, false, lc, yb⟩⟩ (ds.map charKey)
        = ⟨ta, ⟨ViMode.NORMAL, none, pc ++ ds, none, false, lc, yb⟩⟩ := by
  induction ds with
  | nil => intro ta pc lc yb _; simp [keyRun]
  | cons d ds ih =>
    intro ta pc lc yb h0
    have hd : d ∈ (['0', '1', '2', '3', '4', '5', '6', '7', '8', '9'] : List Char) :=
      hds d (List.mem_cons_self d ds)
    have h0' : pc ≠ [] ∨ d ≠ '0' := by
      rcases h0 with h | h
      · exact Or.inl h
      · refine Or.inr fun hne => h ?_
        simp [hne]
    have hstep := digit_key_step ta pc lc yb d hd h0'
    simp only [List.map_cons, keyRun, List.foldl_cons]
    simp only [keyRun] at hstep ih
    rw [hstep, ih (fun x hx => hds x (List.mem_cons_of_mem d hx)) ta (pc ++ [d]) lc yb
      (Or.inl (by simp))]
    simp

/-- Pressing a simple motion key `n` times from a cleared state iterates
its buffer step `n` times. -/
theorem motion_key_replicate (m : Char)
    (hm : m ∈ (['h', 'l', 'j', 'k', 'w', 'b', 'e'] : List Char)) (n : Nat) :
    ∀ (ta : TextAreaState) (lc : Option (List Str)) (yb : Str),
      keyRun ⟨ta, ⟨ViMode.NORMAL, none, [], none, false, lc, yb⟩⟩
          (List.replicate n (charKey m))
        = ⟨(motionStep m)^[n] ta, ⟨ViMode.NORMAL, none, [], none, false, lc, yb⟩⟩ := by
  induction n with
  | zero => intro ta lc yb; simp [keyRun]
  | succ n ih =>
    intro ta lc yb
    have hstep := motion_key_step ta [] lc yb m hm
    have hstep' : (handle_key ⟨ta, ⟨ViMode.NORMAL, none, [], none, false, lc, yb⟩⟩
          (charKey m)).1
        = ⟨motionStep m ta, ⟨ViMode.NORMAL, none, [], none, false, lc, yb⟩⟩ := by
      rw [hstep]; rfl
    simp only [List.replicate_succ, keyRun, List.foldl_cons]
    rw [hstep']
    have hrest := ih (motionStep m ta) lc yb
    simp only [keyRun] at hrest
    rw [hrest, ← Function.iterate_succ_apply]

set_option maxHeartbeats 1000000 in
/-- C7: for `n ≥ 1` and a simple motion `m` in `h/l/j/k/w/b/e`, typing
the decimal digits of `n` followed by `m` leaves the whole engine
(buffer, cursor, selection, undo stacks and vi-state) exactly as
typing `m` `n` separate times does. -/
theorem c7_count_motion_equivalence (e : Engine) (n : Nat) (ds : List Char) (m : Char)
    (hmode : e.st.mode = ViMode.NORMAL) (hcl : pendingCleared e.st)
    (hn : 1 ≤ n) (hds : ds ≠ [])
    (hdig : ∀ d ∈ ds, d ∈ (['0', '1', '2', '3', '4', '5', '6', '7', '8', '9'] : List Char))
    (hhead : ds.head? ≠ some '0')
    (hparse : ViState.parseCount ds = n)
    (hm : m ∈ (['h', 'l', 'j', 'k', 'w', 'b', 'e'] : List Char)) :
    keyRun e (ds.map charKey ++ [charKey m]) = keyRun e (List.replicate n (charKey m)) := by
  obtain ⟨ta, st⟩ := e
  obtain ⟨mo, po, pc, pm, pg, lc, yb⟩ := st
  obtain ⟨hpo, hpc, hpm, hpg⟩ := hcl
  simp only at hmode hpo hpc hpm hpg
  subst hmode hpo hpc hpm hpg
  rw [keyRun_append, digit_key_run ds hdig ta [] lc yb (Or.inr hhead)]
  have hsingle : keyRun ⟨ta, ⟨ViMode.NORMAL, none, [] ++ ds, none, false, lc, yb⟩⟩
        [charKey m]
      = (handle_key ⟨ta, ⟨ViMode.NORMAL, none, [] ++ ds, none, false, lc, yb⟩⟩
          (charKey m)).1 := by
    simp [keyRun]
  rw [hsingle, motion_key_step ta ([] ++ ds) lc yb m hm,
    motion_key_replicate m hm n ta lc yb]
  have hcount : (⟨ViMode.NORMAL, none, [] ++ ds, none, false, lc, yb⟩ : ViState).get_count
      = n := by
    simp only [ViState.get_count, List.nil_append]
    rw [if_neg hds, hparse]
  rw [hcount]
  rfl

/-- C7 witness: `3`,`j` versus `j`,`j`,`j` on a four-line buffer. -/
theorem c7_count_motion_equivalence_witness :
    (initNormal "a\nb\nc\nd".data).st.mode = ViMode.NORMAL
    ∧ pendingCleared (initNormal "a\nb\nc\nd".data).st
    ∧ ViState.parseCount ['3'] = 3
    ∧ keyRun (initNormal "a\nb\nc\nd".data) (['3'].map charKey ++ [charKey 'j'])
        = keyRun (initNormal "a\nb\nc\nd".data) (List.replicate 3 (charKey 'j')) :=
  ⟨by decide, by decide, by decide,
   c7_count_motion_equivalence (initNormal "a\nb\nc\nd".data) 3 ['3'] 'j'
     (by decide) (by decide) (by decide) (by decide) (by decide) (by decide)
     (by decide) (by decide)⟩

/-- `splitNL` never returns the empty list. -/
theorem splitNL_ne_nil (s : Str) : splitNL s ≠ [] := by
  induction s with
  | nil => simp [splitNL]
  | cons c cs ih =>
    simp only [splitNL]
    cases h : splitNL cs with
    | nil => simp
    | cons r rs => by_cases hc : c = '\n' <;> simp [hc]

/-- The number of lines produced by splitting is one more than the
number of line breaks. -/
theorem splitNL_length (s : Str) : (splitNL s).length = s.count '\n' + 1 := by
  induction s with
  | nil => rfl
  | cons c cs ih =>
    simp only [splitNL]
    cases h : splitNL cs with
    | nil => exact absurd h (splitNL_ne_nil cs)
    | cons r rs =>
      rw [h] at ih
      by_cases hc : c = '\n'
      · subst hc
        simp only [List.count_cons, if_pos rfl, List.length_cons] at *
        simp [ih]
      · simp only [List.count_cons, List.length_cons] at *
        simp [hc, ih]

/-- `fullText` of a nonempty list of break-free lines. -/
theorem fullText_cons (l : Str) (ls : List Str) (h : ls ≠ []) :
    fullText (l :: ls) = l ++ '\n' :: fullText ls := by
  cases ls with
  | nil => cases h rfl
  | cons a b => rfl

/-- The full text of a nonempty document of break-free lines contains
exactly one line break less than it has lines. -/
theorem count_nl_fullText (doc : List Str) (hne : doc ≠ [])
    (hwf : ∀ l ∈ doc, '\n' ∉ l) :
    (fullText doc).count '\n' = doc.length - 1 := by
  induction doc with
  | nil => cases hne rfl
  | cons l ls ih =>
    cases ls with
    | nil =>
      simp [fullText, List.count_eq_zero.mpr (hwf l (by simp))]
    | cons l2 ls2 =>
      have h2 := ih (by simp) (fun x hx => hwf x (List.mem_cons_of_mem l hx))
      rw [fullText_cons l (l2 :: ls2) (by simp), List.count_append, List.count_cons]
      rw [List.count_eq_zero.mpr (hwf l (by simp)), h2]
      simp

/-- Offset of the next line start. -/
theorem toOff_succ (lines : List Str) (r : Nat) (hr : r < lines.length) :
    toOff lines (r + 1, 0) = toOff lines (r, 0) + ((lines.getD r []).length + 1) := by
  simp only [toOff]
  have h2 : r < (lines.map (fun l => l.length + 1)).length := by simpa using hr
  rw [List.map_take, List.map_take, List.sum_take_succ _ r h2]
  simp [List.getD_eq_getElem?_getD, List.getElem?_eq_getElem hr]

/-- Dropping the text before row `r` leaves the text of the remaining rows. -/
theorem drop_fullText (lines : List Str) (r : Nat) (hr : r < lines.length) :
    (fullText lines).drop (toOff lines (r, 0)) = fullText (lines.drop r) := by
  induction r generalizing lines with
  | zero => simp [toOff]
  | succ r ih =>
    cases lines with
    | nil => simp at hr
    | cons l ls =>
      have hr' : r < ls.length := by simpa using hr
      have hls : ls ≠ [] := by
        intro h
        rw [h] at hr'
        simp at hr'
      rw [fullText_cons l ls hls]
      have htoff : toOff (l :: ls) (r + 1, 0) = l.length + (1 + toOff ls (r, 0)) := by
        simp [toOff, List.take_succ_cons]
        try omega
      rw [htoff, List.drop_append, show 1 + toOff ls (r, 0) = toOff ls (r, 0) + 1 by omega,
        List.drop_succ_cons]
      exact ih ls hr'

/-- The buffer text range from a row start to the next row start is the
row's line followed by its line break. -/
theorem textRange_line (ta : TextAreaState) (r : Nat) (hr : r < ta.lines.length - 1) :
    ta.textRange (r, 0) (r + 1, 0) = ta.getLine r ++ ['\n'] := by
  have hr1 : r < ta.lines.length := by omega
  have hr2 : r + 1 < ta.lines.length := by omega
  have hlt : locLt (r + 1, 0) (r, 0) = false := by
    simp [locLt]
    try omega
  have hdropne : ta.lines.drop (r + 1) ≠ [] := by
    intro h
    have := List.drop_eq_nil_iff.mp h
    omega
  have hdrop : ta.lines.drop r = ta.getLine r :: ta.lines.drop (r + 1) := by
    rw [List.drop_eq_getElem_cons hr1]
    simp [TextAreaState.getLine, List.getD_eq_getElem?_getD, List.getElem?_eq_getElem hr1]
  simp only [TextAreaState.textRange, hlt, Bool.false_eq_true, if_false]
  rw [toOff_succ _ r hr1]
  have hdiff : toOff ta.lines (r, 0) + ((ta.lines.getD r []).length + 1)
      - toOff ta.lines (r, 0) = (ta.lines.getD r []).length + 1 := by omega
  rw [hdiff, drop_fullText _ r hr1, hdrop, fullText_cons _ _ hdropne]
  have : (ta.lines.getD r []).length = (ta.getLine r).length := rfl
  rw [this, List.take_append 1]
  simp

/-- `_execute_line_operator 'y'` (the `yy` executor) on a non-last row:
copies the line and its break to the register, mutates nothing, and
collapses cursor and selection onto the line start. -/
theorem execute_line_operator_yank (ta : TextAreaState) (st : ViState)
    (hr : ta.cursor.1 < ta.lines.length - 1) :
    Engine.execute_line_operator ⟨ta, st⟩ 'y'
      = ⟨⟨ta.lines, (ta.cursor.1, 0), (ta.cursor.1, 0), ta.undoStack, ta.redoStack⟩,
         { st with yank_buffer := ta.getLine ta.cursor.1 ++ ['\n'] }⟩ := by
  obtain ⟨lines, ss, se, us, rs⟩ := ta
  obtain ⟨r, c0⟩ := se
  simp only [TextAreaState.cursor] at hr ⊢
  have h1 : r + 1 < lines.length := by omega
  simp only [Engine.execute_line_operator, TextAreaState.cursor,
    TextAreaState.action_cursor_line_start, TextAreaState.action_cursor_line_end,
    TextAreaState.move_cursor, TextAreaState.getLine]
  rw [if_pos hr]
  simp only [TextAreaState.action_cursor_right, TextAreaState.cursorRightLoc,
    TextAreaState.cursor, TextAreaState.getLine, TextAreaState.move_cursor]
  rw [if_neg (lt_irrefl _), if_pos h1]
  simp only [TextAreaState.setSelection, TextAreaState.selectedText, reduceIte]
  rw [textRange_line ⟨lines, (r, 0), (r + 1, 0), us, rs⟩ r (by simpa using hr)]
  rfl

/-- Inserting text at any cursor position adds exactly as many lines as
the inserted text has line breaks. -/
theorem insert_line_count (ta : TextAreaState) (p : Loc) (s : Str)
    (hne : ta.lines ≠ []) (hwf : ∀ l ∈ ta.lines, '\n' ∉ l) :
    ((ta.move_cursor p).insertText s).lines.length = ta.lines.length + s.count '\n' := by
  obtain ⟨lines, ss, se, us, rs⟩ := ta
  simp only at hne hwf
  have hself : locLt p p = false := by simp [locLt]
  simp only [TextAreaState.move_cursor, TextAreaState.insertText, TextAreaState.cursor,
    TextAreaState.replaceRange, hself, Bool.false_eq_true, if_false]
  rw [splitNL_length, List.count_append, List.count_append]
  have hsplit : ((fullText lines).take (toOff lines p)).count '\n'
      + ((fullText lines).drop (toOff lines p)).count '\n' = (fullText lines).count '\n' := by
    rw [← List.count_append, List.take_append_drop]
  have hT := count_nl_fullText lines hne hwf
  have hlen : 1 ≤ lines.length := by
    cases lines with
    | nil => cases hne rfl
    | cons a b => simp
  omega

set_option maxHeartbeats 1000000 in
/-- C3 (amended): `yy` on a non-last row yanks the current line
including its trailing line break without mutating the buffer or
LastChange and moves the cursor to the line start; a subsequent `p`
with the (one-line-break) register inserts the register after the
cursor column, increasing the line count by exactly one — though not
necessarily directly below the cursor line. -/
theorem c3_yank_line_paste_count :
    (∀ e : Engine,
      e.st.mode = ViMode.NORMAL → pendingCleared e.st →
      e.ta.cursor.1 < e.ta.lines.length - 1 →
      ((keyRun e [charKey 'y', charKey 'y']).ta.lines = e.ta.lines
        ∧ (keyRun e [charKey 'y', charKey 'y']).st.yank_buffer
            = e.ta.getLine e.ta.cursor.1 ++ ['\n']
        ∧ (keyRun e [charKey 'y', charKey 'y']).ta.cursor = (e.ta.cursor.1, 0)
        ∧ (keyRun e [charKey 'y', charKey 'y']).st.last_change = e.st.last_change))
    ∧ (∀ e : Engine,
      e.st.mode = ViMode.NORMAL → e.st.pending_g = false →
      e.st.pending_motion = none → e.st.pending_operator = none →
      e.ta.lines ≠ [] → (∀ l ∈ e.ta.lines, '\n' ∉ l) →
      (e.st.yank_buffer).count '\n' = 1 →
      (handle_key e (charKey 'p')).1.ta.lines.length = e.ta.lines.length + 1) := by
  constructor
  · rintro ⟨ta, st⟩ hmode hcl hr
    obtain ⟨mo, po, pc, pm, pg, lc, yb⟩ := st
    obtain ⟨hpo, hpc, hpm, hpg⟩ := hcl
    simp only at hmode hpo hpc hpm hpg hr
    subst hmode hpo hpc hpm hpg
    have s2 : keyRun ⟨ta, ⟨ViMode.NORMAL, none, [], none, false, lc, yb⟩⟩
          [charKey 'y', charKey 'y']
        = ⟨(Engine.execute_line_operator
              ⟨ta, ⟨ViMode.NORMAL, some 'y', [], none, false, lc, yb⟩⟩ 'y').ta,
           (Engine.execute_line_operator
              ⟨ta, ⟨ViMode.NORMAL, some 'y', [], none, false, lc, yb⟩⟩ 'y').st.reset_pending⟩ :=
      rfl
    rw [s2, execute_line_operator_yank ta _ hr]
    exact ⟨rfl, rfl, rfl, rfl⟩
  · rintro ⟨ta, st⟩ hmode hg hpm hpo hne hwf hcnt
    obtain ⟨mo, po, pc, pm, pg, lc, yb⟩ := st
    simp only at hmode hg hpm hpo hcnt
    subst hmode hg hpm hpo
    simp only at hne hwf
    have hyb : yb ≠ [] := by
      intro h
      rw [h] at hcnt
      simp at hcnt
    have s1 : (handle_key ⟨ta, ⟨ViMode.NORMAL, none, pc, none, false, lc, yb⟩⟩
          (charKey 'p')).1
        = if yb ≠ [] then
            ⟨(ta.move_cursor (ta.cursor.1,
                min (ta.cursor.2 + 1) (ta.getLine ta.cursor.1).length)).insertText yb,
             (⟨ViMode.NORMAL, none, pc, none, false, lc, yb⟩ : ViState).reset_pending⟩
          else ⟨ta, (⟨ViMode.NORMAL, none, pc, none, false, lc, yb⟩ : ViState).reset_pending⟩ :=
      rfl
    rw [s1, if_pos hyb]
    have hins := insert_line_count ta
      (ta.cursor.1, min (ta.cursor.2 + 1) (ta.getLine ta.cursor.1).length) yb hne hwf
    dsimp only
    rw [hins, hcnt]

set_option maxHeartbeats 1000000 in
/-- C3 witness: `yy` (non-mutating) on `"ab\ncd"` at row 0, then `j`,
then `p` with the register `"ab\n"`; line count goes from 2 to 3. -/
theorem c3_yank_line_paste_count_witness :
    (initNormal "ab\ncd".data).st.mode = ViMode.NORMAL
    ∧ pendingCleared (initNormal "ab\ncd".data).st
    ∧ (initNormal "ab\ncd".data).ta.cursor.1 < (initNormal "ab\ncd".data).ta.lines.length - 1
    ∧ (keyRun (initNormal "ab\ncd".data) [charKey 'y', charKey 'y']).ta.lines
        = (initNormal "ab\ncd".data).ta.lines
    ∧ ((keyRun (initNormal "ab\ncd".data)
          [charKey 'y', charKey 'y', charKey 'j']).st.yank_buffer).count '\n' = 1
    ∧ (handle_key (keyRun (initNormal "ab\ncd".data)
          [charKey 'y', charKey 'y', charKey 'j']) (charKey 'p')).1.ta.lines.length
        = (keyRun (initNormal "ab\ncd".data)
            [charKey 'y', charKey 'y', charKey 'j']).ta.lines.length + 1 :=
  ⟨by decide, by decide, by decide,
   (c3_yank_line_paste_count.1 (initNormal "ab\ncd".data)
      (by decide) (by decide) (by decide)).1,
   by decide,
   c3_yank_line_paste_count.2
     (keyRun (initNormal "ab\ncd".data) [charKey 'y', charKey 'y', charKey 'j'])
     (by decide) (by decide) (by decide) (by decide) (by decide) (by decide) (by decide)⟩

/-- `reset_pending` always establishes the cleared-pending invariant. -/
theorem pendingCleared_reset (s : ViState) : pendingCleared s.reset_pending :=
  ⟨rfl, rfl, rfl, rfl⟩

/-- A printable key's identifier (the one-character string) is never one
of the longer named control keys. -/
theorem charKey_key_ne (c : Char) (s : String) (hs : s.length ≠ 1) : Char.toString c ≠ s := by
  intro h
  apply hs
  rw [← h]
  rfl

/-- The character-motion executor never changes the vi-state. -/
theorem execute_char_motion_st (e : Engine) (m c : Char) :
    (Engine.execute_char_motion e m c).st = e.st := by
  obtain ⟨ta, st⟩ := e
  obtain ⟨lines, ss, se, us, rs⟩ := ta
  obtain ⟨r, c0⟩ := se
  unfold Engine.execute_char_motion
  dsimp only [TextAreaState.cursor]
  split_ifs <;> first | rfl | (split <;> rfl)

set_option maxHeartbeats 1000000 in
/-- Bridge, Normal mode with no pending motion or g: the dispatch's effect
on pending fields and LastChange is exactly the `stAfter` mirror. -/
theorem handle_normalN_st (ta : TextAreaState) (po : Option Char) (pc : Str)
    (lc : Option (List Str)) (yb : Str) (k : KeyEvent) :
    (pendingOf (handle_normal_key ⟨ta, ⟨ViMode.NORMAL, po, pc, none, false, lc, yb⟩⟩ k).st,
      (handle_normal_key ⟨ta, ⟨ViMode.NORMAL, po, pc, none, false, lc, yb⟩⟩ k).st.last_change)
      = stAfter ⟨ViMode.NORMAL, po, pc, none, false, lc, yb⟩ k := by
  simp only [handle_normal_key, stAfter]
  by_cases cdg : digitCond ⟨ViMode.NORMAL, po, pc, none, false, lc, yb⟩ k.ch = true
  · simp only [if_pos cdg]
    all_goals rfl
  simp only [if_neg cdg]
  by_cases ci : k.ch = some 'i'
  · simp only [if_pos ci]
    all_goals rfl
  simp only [if_neg ci]
  by_cases cI : k.ch = some 'I'
  · simp only [if_pos cI]
    all_goals rfl
  simp only [if_neg cI]
  by_cases ca : k.ch = some 'a'
  · simp only [if_pos ca]
    rcases hc : ta.cursor with ⟨r0, c0⟩
    rfl
  simp only [if_neg ca]
  by_cases cA : k.ch = some 'A'
  · simp only [if_pos cA]
    all_goals rfl
  simp only [if_neg cA]
  by_cases co : k.ch = some 'o'
  · simp only [if_pos co]
    all_goals rfl
  simp only [if_neg co]
  by_cases cO : k.ch = some 'O'
  · simp only [if_pos cO]
    all_goals rfl
  simp only [if_neg cO]
  by_cases cv : k.ch = some 'v'
  · simp only [if_pos cv]
    all_goals rfl
  simp only [if_neg cv]
  by_cases chh : k.ch = some 'h' ∨ k.key = "left"
  · simp only [if_pos chh]
    all_goals rfl
  simp only [if_neg chh]
  by_cases cll : k.ch = some 'l' ∨ k.key = "right"
  · simp only [if_pos cll]
    all_goals rfl
  simp only [if_neg cll]
  by_cases cjj : k.ch = some 'j' ∨ k.key = "down"
  · simp only [if_pos cjj]
    all_goals rfl
  simp only [if_neg cjj]
  by_cases ckk : k.ch = some 'k' ∨ k.key = "up"
  · simp only [if_pos ckk]
    all_goals rfl
  simp only [if_neg ckk]
  by_cases cw : k.ch = some 'w'
  · simp only [if_pos cw]
    all_goals rfl
  simp only [if_neg cw]
  by_cases cb : k.ch = some 'b'
  · simp only [if_pos cb]
    all_goals rfl
  simp only [if_neg cb]
  by_cases ce : k.ch = some 'e'
  · simp only [if_pos ce]
    all_goals rfl
  simp only [if_neg ce]
  by_cases c00 : k.ch = some '0'
  · simp only [if_pos c00]
    all_goals rfl
  simp only [if_neg c00]
  by_cases cdol : k.ch = some '$'
  · simp only [if_pos cdol]
    all_goals rfl
  simp only [if_neg cdol]
  by_cases ccar : k.ch = some '^'
  · simp only [if_pos ccar]
    all_goals rfl
  simp only [if_neg ccar]
  by_cases cg : k.ch = some 'g'
  · simp only [if_pos cg]
    all_goals rfl
  simp only [if_neg cg]
  by_cases cG : k.ch = some 'G'
  · simp only [if_pos cG]
    all_goals rfl
  simp only [if_neg cG]
  by_cases cf : k.ch = some 'f' ∨ k.ch = some 'F' ∨ k.ch = some 't' ∨ k.ch = some 'T'
  · simp only [if_pos cf]
    all_goals rfl
  simp only [if_neg cf]
  by_cases cdcy : k.ch = some 'd' ∨ k.ch = some 'c' ∨ k.ch = some 'y'
  · simp only [if_pos cdcy]
    rcases cdcy with h | h | h <;> simp only [h]
    · by_cases hop : po = some 'd'
      · simp only [if_pos hop]
        all_goals rfl
      · simp only [if_neg hop]
        all_goals rfl
    · by_cases hop : po = some 'c'
      · simp only [if_pos hop]
        all_goals rfl
      · simp only [if_neg hop]
        all_goals rfl
    · by_cases hop : po = some 'y'
      · simp only [if_pos hop]
        all_goals rfl
      · simp only [if_neg hop]
        rfl
  simp only [if_neg cdcy]
  rcases po with _ | op
  · -- no pending operator: standalone commands
    by_cases cx : k.ch = some 'x'
    · simp only [if_pos cx]
      all_goals rfl
    simp only [if_neg cx]
    by_cases cX : k.ch = some 'X'
    · simp only [if_pos cX]
      all_goals rfl
    simp only [if_neg cX]
    by_cases cD : k.ch = some 'D'
    · simp only [if_pos cD]
      all_goals rfl
    simp only [if_neg cD]
    by_cases cC : k.ch = some 'C'
    · simp only [if_pos cC]
      all_goals rfl
    simp only [if_neg cC]
    by_cases cs : k.ch = some 's'
    · simp only [if_pos cs]
      all_goals rfl
    simp only [if_neg cs]
    by_cases cS : k.ch = some 'S'
    · simp only [if_pos cS]
      all_goals rfl
    simp only [if_neg cS]
    by_cases cp : k.ch = some 'p'
    · simp only [if_pos cp]
      rcases hc : ta.cursor with ⟨r0, c0⟩
      by_cases hyb : yb ≠ []
      · simp only [if_pos hyb]
        all_goals rfl
      · simp only [if_neg hyb]
        all_goals rfl
    simp only [if_neg cp]
    by_cases cP : k.ch = some 'P'
    · simp only [if_pos cP]
      by_cases hyb : yb ≠ []
      · simp only [if_pos hyb]
        all_goals rfl
      · simp only [if_neg hyb]
        all_goals rfl
    simp only [if_neg cP]
    by_cases cu : k.ch = some 'u'
    · simp only [if_pos cu]
      all_goals rfl
    simp only [if_neg cu]
    by_cases cctl : k.key = "ctrl+r"
    · simp only [if_pos cctl]
      all_goals rfl
    simp only [if_neg cctl]
    by_cases cdot : k.ch = some '.'
    · simp only [if_pos cdot]
      rcases lc with _ | lch
      · rfl
      · exact congrArg (Prod.mk _)
          (replay_change_preserves_last_change _ _ rfl)
    simp only [if_neg cdot]
    by_cases cJ : k.ch = some 'J'
    · simp only [if_pos cJ]
      by_cases hJv : ta.cursor.1 < ta.lines.length - 1
      · simp only [if_pos hJv]
        all_goals rfl
      · simp only [if_neg hJv]
        all_goals rfl
    simp only [if_neg cJ]
    by_cases cr : k.ch = some 'r'
    · simp only [if_pos cr]
      all_goals rfl
    simp only [if_neg cr]
    all_goals rfl
  · simp only [if_neg cw, if_neg cb, if_neg cdol, if_neg c00]
    all_goals rfl

set_option maxHeartbeats 1000000 in
/-- Bridge: the dispatch's effect on the pending fields and LastChange
is exactly the `stAfter` mirror, for every buffer, state and key. -/
theorem handle_key_st_mirror (ta : TextAreaState) (st : ViState) (k : KeyEvent) :
    (pendingOf (handle_key ⟨ta, st⟩ k).1.st, (handle_key ⟨ta, st⟩ k).1.st.last_change)
      = stAfter st k := by
  obtain ⟨mo, po, pc, pm, pg, lc, yb⟩ := st
  cases mo with
  | INSERT =>
    by_cases hesc : k.key = "escape"
    · simp only [handle_key, stAfter, if_pos hesc]
      rcases hc : ta.cursor with ⟨r0, c0⟩
      all_goals rfl
    · simp only [handle_key, stAfter, if_neg hesc]
      all_goals rfl
  | VISUAL =>
    by_cases hesc : k.key = "escape"
    · simp only [handle_key, stAfter, if_pos hesc]
      all_goals rfl
    · simp only [handle_key, handle_visual_key, stAfter, if_neg hesc]
      by_cases vh : k.ch = some 'h' ∨ k.key = "left"
      · simp only [if_pos vh]
        all_goals rfl
      simp only [if_neg vh]
      by_cases vl : k.ch = some 'l' ∨ k.key = "right"
      · simp only [if_pos vl]
        all_goals rfl
      simp only [if_neg vl]
      by_cases vj : k.ch = some 'j' ∨ k.key = "down"
      · simp only [if_pos vj]
        all_goals rfl
      simp only [if_neg vj]
      by_cases vk : k.ch = some 'k' ∨ k.key = "up"
      · simp only [if_pos vk]
        all_goals rfl
      simp only [if_neg vk]
      by_cases vw : k.ch = some 'w'
      · simp only [if_pos vw]
        all_goals rfl
      simp only [if_neg vw]
      by_cases vb : k.ch = some 'b'
      · simp only [if_pos vb]
        all_goals rfl
      simp only [if_neg vb]
      by_cases vdol : k.ch = some '$'
      · simp only [if_pos vdol]
        all_goals rfl
      simp only [if_neg vdol]
      by_cases v00 : k.ch = some '0'
      · simp only [if_pos v00]
        all_goals rfl
      simp only [if_neg v00]
      by_cases vdx : k.ch = some 'd' ∨ k.ch = some 'x'
      · simp only [if_pos vdx]
        all_goals rfl
      simp only [if_neg vdx]
      by_cases vc : k.ch = some 'c'
      · simp only [if_pos vc]
        all_goals rfl
      simp only [if_neg vc]
      by_cases vy : k.ch = some 'y'
      · simp only [if_pos vy]
        all_goals rfl
      simp only [if_neg vy]
      all_goals rfl
  | NORMAL =>
    cases pg with
    | true =>
      by_cases cgg : k.ch = some 'g'
      · simp only [handle_key, handle_normal_key, stAfter, if_pos cgg]
        all_goals rfl
      · simp only [handle_key, handle_normal_key, stAfter, if_neg cgg]
        all_goals rfl
    | false =>
      rcases pm with _ | m
      · exact handle_normalN_st ta po pc lc yb k
      · cases hch : k.ch with
        | none =>
          simp only [handle_key, handle_normal_key, stAfter, hch]
          all_goals rfl
        | some c =>
          simp only [handle_key, handle_normal_key, stAfter, hch]
          exact congrArg (Prod.mk _)
            (congrArg ViState.last_change (execute_char_motion_st _ m c))


/-- The pending fields are cleared iff their tuple is the cleared tuple. -/
theorem pendingCleared_iff_pendingOf (st : ViState) :
    pendingCleared st ↔ pendingOf st = clearedPending := by
  simp [pendingCleared, pendingOf, clearedPending, Prod.ext_iff]

/-- A decimal digit is none of the standalone command characters. -/
theorem isDigit_ne_cmd (c : Char) (h : c.isDigit = true) :
    c ≠ 'x' ∧ c ≠ 'X' ∧ c ≠ 'D' ∧ c ≠ 'C' ∧ c ≠ 's' ∧ c ≠ 'S' ∧ c ≠ 'd' ∧ c ≠ 'c' := by
  refine ⟨?_, ?_, ?_, ?_, ?_, ?_, ?_, ?_⟩ <;> rintro rfl <;> exact absurd h (by decide)

set_option maxHeartbeats 1000000 in
/-- Normal-mode dispatch with no pending motion or g: the mirror's pending
fields end cleared exactly when the key does not continue a composition. -/
theorem stAfterN_cleared_iff (po : Option Char) (pc : Str) (lc : Option (List Str)) (yb : Str)
    (k : KeyEvent) (hgr : grammarKey k) :
    (stAfter ⟨ViMode.NORMAL, po, pc, none, false, lc, yb⟩ k).1 = clearedPending
      ↔ ¬ continuesComposition ⟨ViMode.NORMAL, po, pc, none, false, lc, yb⟩ k := by
  obtain ⟨key, ch⟩ := k
  cases ch with
  | none =>
    have hgr2 : key = "escape" ∨ key = "left" ∨ key = "right" ∨ key = "down"
        ∨ key = "up" ∨ key = "ctrl+r" := hgr
    rcases hgr2 with h | h | h | h | h | h <;> subst h <;>
      simp [stAfter, continuesComposition, digitCond, clearedPending] <;> cases po <;> rfl
  | some c =>
    have hkey : key = Char.toString c := hgr
    subst hkey
    have hL : (Char.toString c = "left") = False :=
      eq_false (charKey_key_ne c "left" (by decide))
    have hR : (Char.toString c = "right") = False :=
      eq_false (charKey_key_ne c "right" (by decide))
    have hD : (Char.toString c = "down") = False :=
      eq_false (charKey_key_ne c "down" (by decide))
    have hU : (Char.toString c = "up") = False :=
      eq_false (charKey_key_ne c "up" (by decide))
    simp only [stAfter, hL, hR, hD, hU, or_false, Option.some.injEq]
    by_cases cdg : digitCond ⟨ViMode.NORMAL, po, pc, none, false, lc, yb⟩ (some c) = true
    · simp only [if_pos cdg]
      simp_all [continuesComposition, clearedPending, Option.toList]
    simp only [if_neg cdg]
    by_cases ci : c = 'i'
    · simp only [if_pos ci]
      simp_all [continuesComposition, clearedPending]
    simp only [if_neg ci]
    by_cases cI : c = 'I'
    · simp only [if_pos cI]
      simp_all [continuesComposition, clearedPending]
    simp only [if_neg cI]
    by_cases ca : c = 'a'
    · simp only [if_pos ca]
      simp_all [continuesComposition, clearedPending]
    simp only [if_neg ca]
    by_cases cA : c = 'A'
    · simp only [if_pos cA]
      simp_all [continuesComposition, clearedPending]
    simp only [if_neg cA]
    by_cases co : c = 'o'
    · simp only [if_pos co]
      simp_all [continuesComposition, clearedPending]
    simp only [if_neg co]
    by_cases cO : c = 'O'
    · simp only [if_pos cO]
      simp_all [continuesComposition, clearedPending]
    simp only [if_neg cO]
    by_cases cv : c = 'v'
    · simp only [if_pos cv]
      simp_all [continuesComposition, clearedPending]
    simp only [if_neg cv]
    by_cases chh : c = 'h'
    · simp only [if_pos chh]
      simp_all [continuesComposition, clearedPending]
    simp only [if_neg chh]
    by_cases cll : c = 'l'
    · simp only [if_pos cll]
      simp_all [continuesComposition, clearedPending]
    simp only [if_neg cll]
    by_cases cjj : c = 'j'
    · simp only [if_pos cjj]
      simp_all [continuesComposition, clearedPending]
    simp only [if_neg cjj]
    by_cases ckk : c = 'k'
    · simp only [if_pos ckk]
      simp_all [continuesComposition, clearedPending]
    simp only [if_neg ckk]
    by_cases cw : c = 'w'
    · simp only [if_pos cw]
      simp_all [continuesComposition, clearedPending]
    simp only [if_neg cw]
    by_cases cb : c = 'b'
    · simp only [if_pos cb]
      simp_all [continuesComposition, clearedPending]
    simp only [if_neg cb]
    by_cases ce : c = 'e'
    · simp only [if_pos ce]
      simp_all [continuesComposition, clearedPending]
    simp only [if_neg ce]
    by_cases c00 : c = '0'
    · simp only [if_pos c00]
      simp_all [continuesComposition, clearedPending]
    simp only [if_neg c00]
    by_cases cdol : c = '$'
    · simp only [if_pos cdol]
      simp_all [continuesComposition, clearedPending]
    simp only [if_neg cdol]
    by_cases ccar : c = '^'
    · simp only [if_pos ccar]
      simp_all [continuesComposition, clearedPending]
    simp only [if_neg ccar]
    by_cases cg : c = 'g'
    · simp only [if_pos cg]
      simp_all [continuesComposition, clearedPending]
    simp only [if_neg cg]
    by_cases cG : c = 'G'
    · simp only [if_pos cG]
      simp_all [continuesComposition, clearedPending]
    simp only [if_neg cG]
    by_cases cf : c = 'f' ∨ c = 'F' ∨ c = 't' ∨ c = 'T'
    · simp only [if_pos cf]
      rcases cf with h | h | h | h <;> subst h <;>
        simp_all [continuesComposition, clearedPending]
    simp only [if_neg cf]
    by_cases cdcy : c = 'd' ∨ c = 'c' ∨ c = 'y'
    · simp only [if_pos cdcy]
      rcases cdcy with h | h | h <;> subst h
      · by_cases hop : po = some 'd'
        · simp only [if_pos hop]
          simp_all [continuesComposition, clearedPending]
        · simp only [if_neg hop]
          simp_all [continuesComposition, clearedPending]
      · by_cases hop : po = some 'c'
        · simp only [if_pos hop]
          simp_all [continuesComposition, clearedPending]
        · simp only [if_neg hop]
          simp_all [continuesComposition, clearedPending]
      · by_cases hop : po = some 'y'
        · simp only [if_pos hop]
          simp_all [continuesComposition, clearedPending]
        · simp only [if_neg hop]
          simp_all [continuesComposition, clearedPending]
    simp only [if_neg cdcy]
    rcases po with _ | op
    · -- no pending operator: standalone commands
      by_cases cx : c = 'x'
      · simp only [if_pos cx]
        simp_all [continuesComposition, clearedPending]
      simp only [if_neg cx]
      by_cases cX : c = 'X'
      · simp only [if_pos cX]
        simp_all [continuesComposition, clearedPending]
      simp only [if_neg cX]
      by_cases cD : c = 'D'
      · simp only [if_pos cD]
        simp_all [continuesComposition, clearedPending]
      simp only [if_neg cD]
      by_cases cC : c = 'C'
      · simp only [if_pos cC]
        simp_all [continuesComposition, clearedPending]
      simp only [if_neg cC]
      by_cases cs : c = 's'
      · simp only [if_pos cs]
        simp_all [continuesComposition, clearedPending]
      simp only [if_neg cs]
      by_cases cS : c = 'S'
      · simp only [if_pos cS]
        simp_all [continuesComposition, clearedPending]
      simp only [if_neg cS]
      by_cases cp : c = 'p'
      · simp only [if_pos cp]
        simp_all [continuesComposition, clearedPending]
      simp only [if_neg cp]
      by_cases cP : c = 'P'
      · simp only [if_pos cP]
        simp_all [continuesComposition, clearedPending]
      simp only [if_neg cP]
      by_cases cu : c = 'u'
      · simp only [if_pos cu]
        simp_all [continuesComposition, clearedPending]
      simp only [if_neg cu]
      by_cases cctl : Char.toString c = "ctrl+r"
      · simp only [if_pos cctl]
        exact absurd cctl (charKey_key_ne c "ctrl+r" (by decide))
      simp only [if_neg cctl]
      by_cases cdot : c = '.'
      · simp only [if_pos cdot]
        simp_all [continuesComposition, clearedPending]
      simp only [if_neg cdot]
      by_cases cJ : c = 'J'
      · simp only [if_pos cJ]
        simp_all [continuesComposition, clearedPending]
      simp only [if_neg cJ]
      by_cases cr : c = 'r'
      · simp only [if_pos cr]
        simp_all [continuesComposition, clearedPending]
      simp only [if_neg cr]
      simp_all [continuesComposition, clearedPending]
    · simp_all [continuesComposition, clearedPending]

set_option maxHeartbeats 1000000 in
/-- Normal-mode dispatch with no pending motion or g: the mirror's LastChange
is the recorded change of a recording dispatch and is otherwise untouched. -/
theorem stAfterN_last_spec (po : Option Char) (pc : Str) (lc : Option (List Str)) (yb : Str)
    (k : KeyEvent) (hgr : grammarKey k) :
    (stAfter ⟨ViMode.NORMAL, po, pc, none, false, lc, yb⟩ k).2
      = if recordsChange ⟨ViMode.NORMAL, po, pc, none, false, lc, yb⟩ k
        then recordedChange ⟨ViMode.NORMAL, po, pc, none, false, lc, yb⟩ k else lc := by
  obtain ⟨key, ch⟩ := k
  cases ch with
  | none =>
    have hgr2 : key = "escape" ∨ key = "left" ∨ key = "right" ∨ key = "down"
        ∨ key = "up" ∨ key = "ctrl+r" := hgr
    rcases hgr2 with h | h | h | h | h | h <;> subst h <;>
      simp [stAfter, recordsChange, recordedChange, digitCond] <;> cases po <;> rfl
  | some c =>
    have hkey : key = Char.toString c := hgr
    subst hkey
    have hL : (Char.toString c = "left") = False :=
      eq_false (charKey_key_ne c "left" (by decide))
    have hR : (Char.toString c = "right") = False :=
      eq_false (charKey_key_ne c "right" (by decide))
    have hD : (Char.toString c = "down") = False :=
      eq_false (charKey_key_ne c "down" (by decide))
    have hU : (Char.toString c = "up") = False :=
      eq_false (charKey_key_ne c "up" (by decide))
    simp only [stAfter, hL, hR, hD, hU, or_false, Option.some.injEq]
    by_cases cdg : digitCond ⟨ViMode.NORMAL, po, pc, none, false, lc, yb⟩ (some c) = true
    · simp only [if_pos cdg]
      have hd : c.isDigit = true := by
        cases hd2 : c.isDigit with
        | true => rfl
        | false => simp [digitCond, hd2] at cdg
      obtain ⟨hx1, hx2, hx3, hx4, hx5, hx6, hx7, hx8⟩ := isDigit_ne_cmd c hd
      simp_all [recordsChange, recordedChange]
    simp only [if_neg cdg]
    by_cases ci : c = 'i'
    · simp only [if_pos ci]
      simp_all [recordsChange, recordedChange]
    simp only [if_neg ci]
    by_cases cI : c = 'I'
    · simp only [if_pos cI]
      simp_all [recordsChange, recordedChange]
    simp only [if_neg cI]
    by_cases ca : c = 'a'
    · simp only [if_pos ca]
      simp_all [recordsChange, recordedChange]
    simp only [if_neg ca]
    by_cases cA : c = 'A'
    · simp only [if_pos cA]
      simp_all [recordsChange, recordedChange]
    simp only [if_neg cA]
    by_cases co : c = 'o'
    · simp only [if_pos co]
      simp_all [recordsChange, recordedChange]
    simp only [if_neg co]
    by_cases cO : c = 'O'
    · simp only [if_pos cO]
      simp_all [recordsChange, recordedChange]
    simp only [if_neg cO]
    by_cases cv : c = 'v'
    · simp only [if_pos cv]
      simp_all [recordsChange, recordedChange]
    simp only [if_neg cv]
    by_cases chh : c = 'h'
    · simp only [if_pos chh]
      simp_all [recordsChange, recordedChange]
    simp only [if_neg chh]
    by_cases cll : c = 'l'
    · simp only [if_pos cll]
      simp_all [recordsChange, recordedChange]
    simp only [if_neg cll]
    by_cases cjj : c = 'j'
    · simp only [if_pos cjj]
      simp_all [recordsChange, recordedChange]
    simp only [if_neg cjj]
    by_cases ckk : c = 'k'
    · simp only [if_pos ckk]
      simp_all [recordsChange, recordedChange]
    simp only [if_neg ckk]
    by_cases cw : c = 'w'
    · simp only [if_pos cw]
      simp_all [recordsChange, recordedChange]
    simp only [if_neg cw]
    by_cases cb : c = 'b'
    · simp only [if_pos cb]
      simp_all [recordsChange, recordedChange]
    simp only [if_neg cb]
    by_cases ce : c = 'e'
    · simp only [if_pos ce]
      simp_all [recordsChange, recordedChange]
    simp only [if_neg ce]
    by_cases c00 : c = '0'
    · simp only [if_pos c00]
      simp_all [recordsChange, recordedChange]
    simp only [if_neg c00]
    by_cases cdol : c = '$'
    · simp only [if_pos cdol]
      simp_all [recordsChange, recordedChange]
    simp only [if_neg cdol]
    by_cases ccar : c = '^'
    · simp only [if_pos ccar]
      simp_all [recordsChange, recordedChange]
    simp only [if_neg ccar]
    by_cases cg : c = 'g'
    · simp only [if_pos cg]
      simp_all [recordsChange, recordedChange]
    simp only [if_neg cg]
    by_cases cG : c = 'G'
    · simp only [if_pos cG]
      simp_all [recordsChange, recordedChange]
    simp only [if_neg cG]
    by_cases cf : c = 'f' ∨ c = 'F' ∨ c = 't' ∨ c = 'T'
    · simp only [if_pos cf]
      rcases cf with h | h | h | h <;> subst h <;>
        simp_all [recordsChange, recordedChange]
    simp only [if_neg cf]
    by_cases cdcy : c = 'd' ∨ c = 'c' ∨ c = 'y'
    · simp only [if_pos cdcy]
      rcases cdcy with h | h | h <;> subst h
      · by_cases hop : po = some 'd'
        · simp only [if_pos hop]
          simp_all [recordsChange, recordedChange]
        · simp only [if_neg hop]
          simp_all [recordsChange, recordedChange]
      · by_cases hop : po = some 'c'
        · simp only [if_pos hop]
          simp_all [recordsChange, recordedChange]
        · simp only [if_neg hop]
          simp_all [recordsChange, recordedChange]
      · by_cases hop : po = some 'y'
        · simp only [if_pos hop]
          simp_all [recordsChange, recordedChange]
        · simp only [if_neg hop]
          simp_all [recordsChange, recordedChange]
    simp only [if_neg cdcy]
    rcases po with _ | op
    · -- no pending operator: standalone commands
      by_cases cx : c = 'x'
      · simp only [if_pos cx]
        simp_all [recordsChange, recordedChange]
      simp only [if_neg cx]
      by_cases cX : c = 'X'
      · simp only [if_pos cX]
        simp_all [recordsChange, recordedChange]
      simp only [if_neg cX]
      by_cases cD : c = 'D'
      · simp only [if_pos cD]
        simp_all [recordsChange, recordedChange]
      simp only [if_neg cD]
      by_cases cC : c = 'C'
      · simp only [if_pos cC]
        simp_all [recordsChange, recordedChange]
      simp only [if_neg cC]
      by_cases cs : c = 's'
      · simp only [if_pos cs]
        simp_all [recordsChange, recordedChange]
      simp only [if_neg cs]
      by_cases cS : c = 'S'
      · simp only [if_pos cS]
        simp_all [recordsChange, recordedChange]
      simp only [if_neg cS]
      by_cases cp : c = 'p'
      · simp only [if_pos cp]
        simp_all [recordsChange, recordedChange]
      simp only [if_neg cp]
      by_cases cP : c = 'P'
      · simp only [if_pos cP]
        simp_all [recordsChange, recordedChange]
      simp only [if_neg cP]
      by_cases cu : c = 'u'
      · simp only [if_pos cu]
        simp_all [recordsChange, recordedChange]
      simp only [if_neg cu]
      by_cases cctl : Char.toString c = "ctrl+r"
      · simp only [if_pos cctl]
        exact absurd cctl (charKey_key_ne c "ctrl+r" (by decide))
      simp only [if_neg cctl]
      by_cases cdot : c = '.'
      · simp only [if_pos cdot]
        simp_all [recordsChange, recordedChange]
      simp only [if_neg cdot]
      by_cases cJ : c = 'J'
      · simp only [if_pos cJ]
        simp_all [recordsChange, recordedChange]
      simp only [if_neg cJ]
      by_cases cr : c = 'r'
      · simp only [if_pos cr]
        simp_all [recordsChange, recordedChange]
      simp only [if_neg cr]
      simp_all [recordsChange, recordedChange]
    · simp_all [recordsChange, recordedChange]


set_option maxHeartbeats 1000000 in
/-- Every dispatch ends in Normal mode, or ends with the pending fields
cleared, or leaves the vi-state untouched: the three cases that let the
cleared-outside-Normal invariant survive any key. -/
theorem handle_key_mode_pending (ta : TextAreaState) (st : ViState) (k : KeyEvent) :
    (handle_key ⟨ta, st⟩ k).1.st.mode = ViMode.NORMAL
      ∨ pendingCleared (handle_key ⟨ta, st⟩ k).1.st
      ∨ (handle_key ⟨ta, st⟩ k).1.st = st := by
  obtain ⟨mo, po, pc, pm, pg, lc, yb⟩ := st
  cases mo with
  | INSERT =>
    by_cases hesc : k.key = "escape"
    · simp only [handle_key, if_pos hesc]
      rcases hc : ta.cursor with ⟨r0, c0⟩
      first
      | exact Or.inl rfl
      | exact Or.inr (Or.inl ⟨rfl, rfl, rfl, rfl⟩)
      | exact Or.inr (Or.inr rfl)
      | exact Or.inr (Or.inr True.intro)
    · simp only [handle_key, if_neg hesc]
      first
      | exact Or.inl rfl
      | exact Or.inr (Or.inl ⟨rfl, rfl, rfl, rfl⟩)
      | exact Or.inr (Or.inr rfl)
      | exact Or.inr (Or.inr True.intro)
  | VISUAL =>
    by_cases hesc : k.key = "escape"
    · simp only [handle_key, if_pos hesc]
      first
      | exact Or.inl rfl
      | exact Or.inr (Or.inl ⟨rfl, rfl, rfl, rfl⟩)
      | exact Or.inr (Or.inr rfl)
      | exact Or.inr (Or.inr True.intro)
    · simp only [handle_key, handle_visual_key, if_neg hesc]
      by_cases vh : k.ch = some 'h' ∨ k.key = "left"
      · simp only [if_pos vh]
        first
        | exact Or.inl rfl
        | exact Or.inr (Or.inl ⟨rfl, rfl, rfl, rfl⟩)
        | exact Or.inr (Or.inr rfl)
        | exact Or.inr (Or.inr True.intro)
      simp only [if_neg vh]
      by_cases vl : k.ch = some 'l' ∨ k.key = "right"
      · simp only [if_pos vl]
        first
        | exact Or.inl rfl
        | exact Or.inr (Or.inl ⟨rfl, rfl, rfl, rfl⟩)
        | exact Or.inr (Or.inr rfl)
        | exact Or.inr (Or.inr True.intro)
      simp only [if_neg vl]
      by_cases vj : k.ch = some 'j' ∨ k.key = "down"
      · simp only [if_pos vj]
        first
        | exact Or.inl rfl
        | exact Or.inr (Or.inl ⟨rfl, rfl, rfl, rfl⟩)
        | exact Or.inr (Or.inr rfl)
        | exact Or.inr (Or.inr True.intro)
      simp only [if_neg vj]
      by_cases vk : k.ch = some 'k' ∨ k.key = "up"
      · simp only [if_pos vk]
        first
        | exact Or.inl rfl
        | exact Or.inr (Or.inl ⟨rfl, rfl, rfl, rfl⟩)
        | exact Or.inr (Or.inr rfl)
        | exact Or.inr (Or.inr True.intro)
      simp only [if_neg vk]
      by_cases vw : k.ch = some 'w'
      · simp only [if_pos vw]
        first
        | exact Or.inl rfl
        | exact Or.inr (Or.inl ⟨rfl, rfl, rfl, rfl⟩)
        | exact Or.inr (Or.inr rfl)
        | exact Or.inr (Or.inr True.intro)
      simp only [if_neg vw]
      by_cases vb : k.ch = some 'b'
      · simp only [if_pos vb]
        first
        | exact Or.inl rfl
        | exact Or.inr (Or.inl ⟨rfl, rfl, rfl, rfl⟩)
        | exact Or.inr (Or.inr rfl)
        | exact Or.inr (Or.inr True.intro)
      simp only [if_neg vb]
      by_cases vdol : k.ch = some '$'
      · simp only [if_pos vdol]
        first
        | exact Or.inl rfl
        | exact Or.inr (Or.inl ⟨rfl, rfl, rfl, rfl⟩)
        | exact Or.inr (Or.inr rfl)
        | exact Or.inr (Or.inr True.intro)
      simp only [if_neg vdol]
      by_cases v00 : k.ch = some '0'
      · simp only [if_pos v00]
        first
        | exact Or.inl rfl
        | exact Or.inr (Or.inl ⟨rfl, rfl, rfl, rfl⟩)
        | exact Or.inr (Or.inr rfl)
        | exact Or.inr (Or.inr True.intro)
      simp only [if_neg v00]
      by_cases vdx : k.ch = some 'd' ∨ k.ch = some 'x'
      · simp only [if_pos vdx]
        first
        | exact Or.inl rfl
        | exact Or.inr (Or.inl ⟨rfl, rfl, rfl, rfl⟩)
        | exact Or.inr (Or.inr rfl)
        | exact Or.inr (Or.inr True.intro)
      simp only [if_neg vdx]
      by_cases vc : k.ch = some 'c'
      · simp only [if_pos vc]
        first
        | exact Or.inl rfl
        | exact Or.inr (Or.inl ⟨rfl, rfl, rfl, rfl⟩)
        | exact Or.inr (Or.inr rfl)
        | exact Or.inr (Or.inr True.intro)
      simp only [if_neg vc]
      by_cases vy : k.ch = some 'y'
      · simp only [if_pos vy]
        first
        | exact Or.inl rfl
        | exact Or.inr (Or.inl ⟨rfl, rfl, rfl, rfl⟩)
        | exact Or.inr (Or.inr rfl)
        | exact Or.inr (Or.inr True.intro)
      simp only [if_neg vy]
      first
      | exact Or.inl rfl
      | exact Or.inr (Or.inl ⟨rfl, rfl, rfl, rfl⟩)
      | exact Or.inr (Or.inr rfl)
      | exact Or.inr (Or.inr True.intro)
  | NORMAL =>
    cases pg with
    | true =>
      by_cases cgg : k.ch = some 'g'
      · simp only [handle_key, handle_normal_key, if_pos cgg]
        first
        | exact Or.inl rfl
        | exact Or.inr (Or.inl ⟨rfl, rfl, rfl, rfl⟩)
        | exact Or.inr (Or.inr rfl)
        | exact Or.inr (Or.inr True.intro)
      · simp only [handle_key, handle_normal_key, if_neg cgg]
        first
        | exact Or.inl rfl
        | exact Or.inr (Or.inl ⟨rfl, rfl, rfl, rfl⟩)
        | exact Or.inr (Or.inr rfl)
        | exact Or.inr (Or.inr True.intro)
    | false =>
      rcases pm with _ | m
      · simp only [handle_key, handle_normal_key]
        by_cases cdg : digitCond ⟨ViMode.NORMAL, po, pc, none, false, lc, yb⟩ k.ch = true
        · simp only [if_pos cdg]
          first
          | exact Or.inl rfl
          | exact Or.inr (Or.inl ⟨rfl, rfl, rfl, rfl⟩)
          | exact Or.inr (Or.inr rfl)
          | exact Or.inr (Or.inr True.intro)
        simp only [if_neg cdg]
        by_cases ci : k.ch = some 'i'
        · simp only [if_pos ci]
          first
          | exact Or.inl rfl
          | exact Or.inr (Or.inl ⟨rfl, rfl, rfl, rfl⟩)
          | exact Or.inr (Or.inr rfl)
          | exact Or.inr (Or.inr True.intro)
        simp only [if_neg ci]
        by_cases cI : k.ch = some 'I'
        · simp only [if_pos cI]
          first
          | exact Or.inl rfl
          | exact Or.inr (Or.inl ⟨rfl, rfl, rfl, rfl⟩)
          | exact Or.inr (Or.inr rfl)
          | exact Or.inr (Or.inr True.intro)
        simp only [if_neg cI]
        by_cases ca : k.ch = some 'a'
        · simp only [if_pos ca]
          rcases hc : ta.cursor with ⟨r0, c0⟩
          first
          | exact Or.inl rfl
          | exact Or.inr (Or.inl ⟨rfl, rfl, rfl, rfl⟩)
          | exact Or.inr (Or.inr rfl)
          | exact Or.inr (Or.inr True.intro)
        simp only [if_neg ca]
        by_cases cA : k.ch = some 'A'
        · simp only [if_pos cA]
          first
          | exact Or.inl rfl
          | exact Or.inr (Or.inl ⟨rfl, rfl, rfl, rfl⟩)
          | exact Or.inr (Or.inr rfl)
          | exact Or.inr (Or.inr True.intro)
        simp only [if_neg cA]
        by_cases co : k.ch = some 'o'
        · simp only [if_pos co]
          first
          | exact Or.inl rfl
          | exact Or.inr (Or.inl ⟨rfl, rfl, rfl, rfl⟩)
          | exact Or.inr (Or.inr rfl)
          | exact Or.inr (Or.inr True.intro)
        simp only [if_neg co]
        by_cases cO : k.ch = some 'O'
        · simp only [if_pos cO]
          first
          | exact Or.inl rfl
          | exact Or.inr (Or.inl ⟨rfl, rfl, rfl, rfl⟩)
          | exact Or.inr (Or.inr rfl)
          | exact Or.inr (Or.inr True.intro)
        simp only [if_neg cO]
        by_cases cv : k.ch = some 'v'
        · simp only [if_pos cv]
          first
          | exact Or.inl rfl
          | exact Or.inr (Or.inl ⟨rfl, rfl, rfl, rfl⟩)
          | exact Or.inr (Or.inr rfl)
          | exact Or.inr (Or.inr True.intro)
        simp only [if_neg cv]
        by_cases chh : k.ch = some 'h' ∨ k.key = "left"
        · simp only [if_pos chh]
          first
          | exact Or.inl rfl
          | exact Or.inr (Or.inl ⟨rfl, rfl, rfl, rfl⟩)
          | exact Or.inr (Or.inr rfl)
          | exact Or.inr (Or.inr True.intro)
        simp only [if_neg chh]
        by_cases cll : k.ch = some 'l' ∨ k.key = "right"
        · simp only [if_pos cll]
          first
          | exact Or.inl rfl
          | exact Or.inr (Or.inl ⟨rfl, rfl, rfl, rfl⟩)
          | exact Or.inr (Or.inr rfl)
          | exact Or.inr (Or.inr True.intro)
        simp only [if_neg cll]
        by_cases cjj : k.ch = some 'j' ∨ k.key = "down"
        · simp only [if_pos cjj]
          first
          | exact Or.inl rfl
          | exact Or.inr (Or.inl ⟨rfl, rfl, rfl, rfl⟩)
          | exact Or.inr (Or.inr rfl)
          | exact Or.inr (Or.inr True.intro)
        simp only [if_neg cjj]
        by_cases ckk : k.ch = some 'k' ∨ k.key = "up"
        · simp only [if_pos ckk]
          first
          | exact Or.inl rfl
          | exact Or.inr (Or.inl ⟨rfl, rfl, rfl, rfl⟩)
          | exact Or.inr (Or.inr rfl)
          | exact Or.inr (Or.inr True.intro)
        simp only [if_neg ckk]
        by_cases cw : k.ch = some 'w'
        · simp only [if_pos cw]
          first
          | exact Or.inl rfl
          | exact Or.inr (Or.inl ⟨rfl, rfl, rfl, rfl⟩)
          | exact Or.inr (Or.inr rfl)
          | exact Or.inr (Or.inr True.intro)
        simp only [if_neg cw]
        by_cases cb : k.ch = some 'b'
        · simp only [if_pos cb]
          first
          | exact Or.inl rfl
          | exact Or.inr (Or.inl ⟨rfl, rfl, rfl, rfl⟩)
          | exact Or.inr (Or.inr rfl)
          | exact Or.inr (Or.inr True.intro)
        simp only [if_neg cb]
        by_cases ce : k.ch = some 'e'
        · simp only [if_pos ce]
          first
          | exact Or.inl rfl
          | exact Or.inr (Or.inl ⟨rfl, rfl, rfl, rfl⟩)
          | exact Or.inr (Or.inr rfl)
          | exact Or.inr (Or.inr True.intro)
        simp only [if_neg ce]
        by_cases c00 : k.ch = some '0'
        · simp only [if_pos c00]
          first
          | exact Or.inl rfl
          | exact Or.inr (Or.inl ⟨rfl, rfl, rfl, rfl⟩)
          | exact Or.inr (Or.inr rfl)
          | exact Or.inr (Or.inr True.intro)
        simp only [if_neg c00]
        by_cases cdol : k.ch = some '$'
        · simp only [if_pos cdol]
          first
          | exact Or.inl rfl
          | exact Or.inr (Or.inl ⟨rfl, rfl, rfl, rfl⟩)
          | exact Or.inr (Or.inr rfl)
          | exact Or.inr (Or.inr True.intro)
        simp only [if_neg cdol]
        by_cases ccar : k.ch = some '^'
        · simp only [if_pos ccar]
          first
          | exact Or.inl rfl
          | exact Or.inr (Or.inl ⟨rfl, rfl, rfl, rfl⟩)
          | exact Or.inr (Or.inr rfl)
          | exact Or.inr (Or.inr True.intro)
        simp only [if_neg ccar]
        by_cases cg : k.ch = some 'g'
        · simp only [if_pos cg]
          first
          | exact Or.inl rfl
          | exact Or.inr (Or.inl ⟨rfl, rfl, rfl, rfl⟩)
          | exact Or.inr (Or.inr rfl)
          | exact Or.inr (Or.inr True.intro)
        simp only [if_neg cg]
        by_cases cG : k.ch = some 'G'
        · simp only [if_pos cG]
          first
          | exact Or.inl rfl
          | exact Or.inr (Or.inl ⟨rfl, rfl, rfl, rfl⟩)
          | exact Or.inr (Or.inr rfl)
          | exact Or.inr (Or.inr True.intro)
        simp only [if_neg cG]
        by_cases cf : k.ch = some 'f' ∨ k.ch = some 'F' ∨ k.ch = some 't' ∨ k.ch = some 'T'
        · simp only [if_pos cf]
          first
          | exact Or.inl rfl
          | exact Or.inr (Or.inl ⟨rfl, rfl, rfl, rfl⟩)
          | exact Or.inr (Or.inr rfl)
          | exact Or.inr (Or.inr True.intro)
        simp only [if_neg cf]
        by_cases cdcy : k.ch = some 'd' ∨ k.ch = some 'c' ∨ k.ch = some 'y'
        · simp only [if_pos cdcy]
          rcases cdcy with h | h | h <;> simp only [h]
          · by_cases hop : po = some 'd'
            · simp only [if_pos hop]
              exact Or.inr (Or.inl ⟨rfl, rfl, rfl, rfl⟩)
            · simp only [if_neg hop]
              exact Or.inl rfl
          · by_cases hop : po = some 'c'
            · simp only [if_pos hop]
              exact Or.inr (Or.inl ⟨rfl, rfl, rfl, rfl⟩)
            · simp only [if_neg hop]
              exact Or.inl rfl
          · by_cases hop : po = some 'y'
            · simp only [if_pos hop]
              exact Or.inr (Or.inl ⟨rfl, rfl, rfl, rfl⟩)
            · simp only [if_neg hop]
              exact Or.inl rfl
        simp only [if_neg cdcy]
        rcases po with _ | op
        · -- no pending operator: standalone commands
          by_cases cx : k.ch = some 'x'
          · simp only [if_pos cx]
            first
            | exact Or.inl rfl
            | exact Or.inr (Or.inl ⟨rfl, rfl, rfl, rfl⟩)
            | exact Or.inr (Or.inr rfl)
            | exact Or.inr (Or.inr True.intro)
          simp only [if_neg cx]
          by_cases cX : k.ch = some 'X'
          · simp only [if_pos cX]
            first
            | exact Or.inl rfl
            | exact Or.inr (Or.inl ⟨rfl, rfl, rfl, rfl⟩)
            | exact Or.inr (Or.inr rfl)
            | exact Or.inr (Or.inr True.intro)
          simp only [if_neg cX]
          by_cases cD : k.ch = some 'D'
          · simp only [if_pos cD]
            first
            | exact Or.inl rfl
            | exact Or.inr (Or.inl ⟨rfl, rfl, rfl, rfl⟩)
            | exact Or.inr (Or.inr rfl)
            | exact Or.inr (Or.inr True.intro)
          simp only [if_neg cD]
          by_cases cC : k.ch = some 'C'
          · simp only [if_pos cC]
            first
            | exact Or.inl rfl
            | exact Or.inr (Or.inl ⟨rfl, rfl, rfl, rfl⟩)
            | exact Or.inr (Or.inr rfl)
            | exact Or.inr (Or.inr True.intro)
          simp only [if_neg cC]
          by_cases cs : k.ch = some 's'
          · simp only [if_pos cs]
            first
            | exact Or.inl rfl
            | exact Or.inr (Or.inl ⟨rfl, rfl, rfl, rfl⟩)
            | exact Or.inr (Or.inr rfl)
            | exact Or.inr (Or.inr True.intro)
          simp only [if_neg cs]
          by_cases cS : k.ch = some 'S'
          · simp only [if_pos cS]
            first
            | exact Or.inl rfl
            | exact Or.inr (Or.inl ⟨rfl, rfl, rfl, rfl⟩)
            | exact Or.inr (Or.inr rfl)
            | exact Or.inr (Or.inr True.intro)
          simp only [if_neg cS]
          by_cases cp : k.ch = some 'p'
          · simp only [if_pos cp]
            rcases hc : ta.cursor with ⟨r0, c0⟩
            by_cases hyb : yb ≠ []
            · simp only [if_pos hyb]
              first
              | exact Or.inl rfl
              | exact Or.inr (Or.inl ⟨rfl, rfl, rfl, rfl⟩)
              | exact Or.inr (Or.inr rfl)
              | exact Or.inr (Or.inr True.intro)
            · simp only [if_neg hyb]
              first
              | exact Or.inl rfl
              | exact Or.inr (Or.inl ⟨rfl, rfl, rfl, rfl⟩)
              | exact Or.inr (Or.inr rfl)
              | exact Or.inr (Or.inr True.intro)
          simp only [if_neg cp]
          by_cases cP : k.ch = some 'P'
          · simp only [if_pos cP]
            by_cases hyb : yb ≠ []
            · simp only [if_pos hyb]
              first
              | exact Or.inl rfl
              | exact Or.inr (Or.inl ⟨rfl, rfl, rfl, rfl⟩)
              | exact Or.inr (Or.inr rfl)
              | exact Or.inr (Or.inr True.intro)
            · simp only [if_neg hyb]
              first
              | exact Or.inl rfl
              | exact Or.inr (Or.inl ⟨rfl, rfl, rfl, rfl⟩)
              | exact Or.inr (Or.inr rfl)
              | exact Or.inr (Or.inr True.intro)
          simp only [if_neg cP]
          by_cases cu : k.ch = some 'u'
          · simp only [if_pos cu]
            first
            | exact Or.inl rfl
            | exact Or.inr (Or.inl ⟨rfl, rfl, rfl, rfl⟩)
            | exact Or.inr (Or.inr rfl)
            | exact Or.inr (Or.inr True.intro)
          simp only [if_neg cu]
          by_cases cctl : k.key = "ctrl+r"
          · simp only [if_pos cctl]
            first
            | exact Or.inl rfl
            | exact Or.inr (Or.inl ⟨rfl, rfl, rfl, rfl⟩)
            | exact Or.inr (Or.inr rfl)
            | exact Or.inr (Or.inr True.intro)
          simp only [if_neg cctl]
          by_cases cdot : k.ch = some '.'
          · simp only [if_pos cdot]
            rcases lc with _ | lch
            · first
              | exact Or.inl rfl
              | exact Or.inr (Or.inl ⟨rfl, rfl, rfl, rfl⟩)
              | exact Or.inr (Or.inr rfl)
              | exact Or.inr (Or.inr True.intro)
            · first
              | exact Or.inl rfl
              | exact Or.inr (Or.inl ⟨rfl, rfl, rfl, rfl⟩)
              | exact Or.inr (Or.inr rfl)
              | exact Or.inr (Or.inr True.intro)
          simp only [if_neg cdot]
          by_cases cJ : k.ch = some 'J'
          · simp only [if_pos cJ]
            by_cases hJv : ta.cursor.1 < ta.lines.length - 1
            · simp only [if_pos hJv]
              first
              | exact Or.inl rfl
              | exact Or.inr (Or.inl ⟨rfl, rfl, rfl, rfl⟩)
              | exact Or.inr (Or.inr rfl)
              | exact Or.inr (Or.inr True.intro)
            · simp only [if_neg hJv]
              first
              | exact Or.inl rfl
              | exact Or.inr (Or.inl ⟨rfl, rfl, rfl, rfl⟩)
              | exact Or.inr (Or.inr rfl)
              | exact Or.inr (Or.inr True.intro)
          simp only [if_neg cJ]
          by_cases cr : k.ch = some 'r'
          · simp only [if_pos cr]
            first
            | exact Or.inl rfl
            | exact Or.inr (Or.inl ⟨rfl, rfl, rfl, rfl⟩)
            | exact Or.inr (Or.inr rfl)
            | exact Or.inr (Or.inr True.intro)
          simp only [if_neg cr]
          first
          | exact Or.inl rfl
          | exact Or.inr (Or.inl ⟨rfl, rfl, rfl, rfl⟩)
          | exact Or.inr (Or.inr rfl)
          | exact Or.inr (Or.inr True.intro)
        · simp only [if_neg cw, if_neg cb, if_neg cdol, if_neg c00]
          first
          | exact Or.inl rfl
          | exact Or.inr (Or.inl ⟨rfl, rfl, rfl, rfl⟩)
          | exact Or.inr (Or.inr rfl)
          | exact Or.inr (Or.inr True.intro)
      · cases hch : k.ch with
        | none =>
          simp only [handle_key, handle_normal_key, hch]
          first
          | exact Or.inl rfl
          | exact Or.inr (Or.inl ⟨rfl, rfl, rfl, rfl⟩)
          | exact Or.inr (Or.inr rfl)
          | exact Or.inr (Or.inr True.intro)
        | some c =>
          simp only [handle_key, handle_normal_key, hch]
          first
          | exact Or.inl rfl
          | exact Or.inr (Or.inl ⟨rfl, rfl, rfl, rfl⟩)
          | exact Or.inr (Or.inr rfl)
          | exact Or.inr (Or.inr True.intro)

set_option maxHeartbeats 1000000 in
/-- The mirror's pending fields end cleared exactly when the key does not
continue a composition, under the cleared-outside-Normal invariant. -/
theorem stAfter_cleared_iff (st : ViState) (k : KeyEvent)
    (hgr : grammarKey k)
    (hinv : st.mode ≠ ViMode.NORMAL → pendingCleared st) :
    (stAfter st k).1 = clearedPending ↔ ¬ continuesComposition st k := by
  obtain ⟨mo, po, pc, pm, pg, lc, yb⟩ := st
  cases mo with
  | INSERT =>
    obtain ⟨h1, h2, h3, h4⟩ := hinv (by simp)
    simp only at h1 h2 h3 h4
    subst h1 h2 h3 h4
    refine iff_of_true ?_ (by simp [continuesComposition])
    by_cases hesc : k.key = "escape"
    · simp only [stAfter, if_pos hesc]
      all_goals rfl
    · simp only [stAfter, if_neg hesc]
      all_goals rfl
  | VISUAL =>
    obtain ⟨h1, h2, h3, h4⟩ := hinv (by simp)
    simp only at h1 h2 h3 h4
    subst h1 h2 h3 h4
    refine iff_of_true ?_ (by simp [continuesComposition])
    by_cases hesc : k.key = "escape"
    · simp only [stAfter, if_pos hesc]
      all_goals rfl
    · simp only [stAfter, if_neg hesc]
      by_cases vh : k.ch = some 'h' ∨ k.key = "left"
      · simp only [if_pos vh]
        all_goals rfl
      simp only [if_neg vh]
      by_cases vl : k.ch = some 'l' ∨ k.key = "right"
      · simp only [if_pos vl]
        all_goals rfl
      simp only [if_neg vl]
      by_cases vj : k.ch = some 'j' ∨ k.key = "down"
      · simp only [if_pos vj]
        all_goals rfl
      simp only [if_neg vj]
      by_cases vk : k.ch = some 'k' ∨ k.key = "up"
      · simp only [if_pos vk]
        all_goals rfl
      simp only [if_neg vk]
      by_cases vw : k.ch = some 'w'
      · simp only [if_pos vw]
        all_goals rfl
      simp only [if_neg vw]
      by_cases vb : k.ch = some 'b'
      · simp only [if_pos vb]
        all_goals rfl
      simp only [if_neg vb]
      by_cases vdol : k.ch = some '$'
      · simp only [if_pos vdol]
        all_goals rfl
      simp only [if_neg vdol]
      by_cases v00 : k.ch = some '0'
      · simp only [if_pos v00]
        all_goals rfl
      simp only [if_neg v00]
      by_cases vdx : k.ch = some 'd' ∨ k.ch = some 'x'
      · simp only [if_pos vdx]
        all_goals rfl
      simp only [if_neg vdx]
      by_cases vc : k.ch = some 'c'
      · simp only [if_pos vc]
        all_goals rfl
      simp only [if_neg vc]
      by_cases vy : k.ch = some 'y'
      · simp only [if_pos vy]
        all_goals rfl
      simp only [if_neg vy]
      all_goals rfl
  | NORMAL =>
    cases pg with
    | true => exact iff_of_true (by rfl) (by simp [continuesComposition])
    | false =>
      rcases pm with _ | m
      · exact stAfterN_cleared_iff po pc lc yb k hgr
      · exact iff_of_true (by rfl) (by simp [continuesComposition])

set_option maxHeartbeats 1000000 in
/-- The mirror's LastChange is the recorded change of a recording dispatch
and is otherwise the value held before. -/
theorem stAfter_last_spec (st : ViState) (k : KeyEvent) (hgr : grammarKey k) :
    (stAfter st k).2
      = if recordsChange st k then recordedChange st k else st.last_change := by
  obtain ⟨mo, po, pc, pm, pg, lc, yb⟩ := st
  cases mo with
  | INSERT =>
    rw [if_neg (by simp [recordsChange])]
    by_cases hesc : k.key = "escape"
    · simp only [stAfter, if_pos hesc]
      all_goals rfl
    · simp only [stAfter, if_neg hesc]
      all_goals rfl
  | VISUAL =>
    rw [if_neg (by simp [recordsChange])]
    by_cases hesc : k.key = "escape"
    · simp only [stAfter, if_pos hesc]
      all_goals rfl
    · simp only [stAfter, if_neg hesc]
      by_cases vh : k.ch = some 'h' ∨ k.key = "left"
      · simp only [if_pos vh]
        all_goals rfl
      simp only [if_neg vh]
      by_cases vl : k.ch = some 'l' ∨ k.key = "right"
      · simp only [if_pos vl]
        all_goals rfl
      simp only [if_neg vl]
      by_cases vj : k.ch = some 'j' ∨ k.key = "down"
      · simp only [if_pos vj]
        all_goals rfl
      simp only [if_neg vj]
      by_cases vk : k.ch = some 'k' ∨ k.key = "up"
      · simp only [if_pos vk]
        all_goals rfl
      simp only [if_neg vk]
      by_cases vw : k.ch = some 'w'
      · simp only [if_pos vw]
        all_goals rfl
      simp only [if_neg vw]
      by_cases vb : k.ch = some 'b'
      · simp only [if_pos vb]
        all_goals rfl
      simp only [if_neg vb]
      by_cases vdol : k.ch = some '$'
      · simp only [if_pos vdol]
        all_goals rfl
      simp only [if_neg vdol]
      by_cases v00 : k.ch = some '0'
      · simp only [if_pos v00]
        all_goals rfl
      simp only [if_neg v00]
      by_cases vdx : k.ch = some 'd' ∨ k.ch = some 'x'
      · simp only [if_pos vdx]
        all_goals rfl
      simp only [if_neg vdx]
      by_cases vc : k.ch = some 'c'
      · simp only [if_pos vc]
        all_goals rfl
      simp only [if_neg vc]
      by_cases vy : k.ch = some 'y'
      · simp only [if_pos vy]
        all_goals rfl
      simp only [if_neg vy]
      all_goals rfl
  | NORMAL =>
    cases pg with
    | true =>
      rw [if_neg (by simp [recordsChange])]
      rfl
    | false =>
      rcases pm with _ | m
      · exact stAfterN_last_spec po pc lc yb k hgr
      · rw [if_neg (by simp [recordsChange])]
        rfl

/-- One dispatch preserves the cleared-outside-Normal invariant. -/
theorem hinv_preserved (e : Engine) (k : KeyEvent)
    (h : e.st.mode ≠ ViMode.NORMAL → pendingCleared e.st) :
    (handle_key e k).1.st.mode ≠ ViMode.NORMAL
      → pendingCleared (handle_key e k).1.st := by
  obtain ⟨ta, st⟩ := e
  intro hm
  rcases handle_key_mode_pending ta st k with h1 | h1 | h1
  · exact absurd h1 hm
  · exact h1
  · rw [h1] at hm ⊢
    exact h hm

/-- Every state reached by running keys from a Normal-mode start satisfies
the cleared-outside-Normal invariant. -/
theorem keyRun_hinv (e : Engine) (ks : List KeyEvent)
    (h : e.st.mode ≠ ViMode.NORMAL → pendingCleared e.st) :
    (keyRun e ks).st.mode ≠ ViMode.NORMAL → pendingCleared (keyRun e ks).st := by
  induction ks generalizing e with
  | nil => exact h
  | cons k ks ih => exact ih _ (hinv_preserved e k h)

/-- C2: after any grammar key sequence from a Normal-mode start, a further
dispatch leaves the pending-composition fields (pending_operator,
pending_count, pending_motion, pending_g) all cleared exactly when the key
does not continue a composition (count digit, bare g, f/F/t/T, a fresh
operator d/c/y, or r outside an operator): completed, cancelled and no-op
commands always clear them. -/
theorem c2_pending_cleared_iff (txt : Str) (ks : List KeyEvent) (k : KeyEvent)
    (hgr : grammarKey k) :
    pendingCleared (handle_key (keyRun (initNormal txt) ks) k).1.st
      ↔ ¬ continuesComposition (keyRun (initNormal txt) ks).st k := by
  rw [pendingCleared_iff_pendingOf]
  rw [show pendingOf (handle_key (keyRun (initNormal txt) ks) k).1.st
        = (stAfter (keyRun (initNormal txt) ks).st k).1 from
    congrArg Prod.fst
      (handle_key_st_mirror (keyRun (initNormal txt) ks).ta
        (keyRun (initNormal txt) ks).st k)]
  exact stAfter_cleared_iff (keyRun (initNormal txt) ks).st k hgr
    (keyRun_hinv (initNormal txt) ks (fun hmode => absurd rfl hmode))

/-- Witness for C2: after d (operator pending), the unknown motion key q
cancels the composition and clears the pending fields. -/
theorem c2_pending_cleared_iff_witness :
    pendingCleared
        (handle_key (keyRun (initNormal "ab".data) [charKey 'd']) (charKey 'q')).1.st
      ↔ ¬ continuesComposition (keyRun (initNormal "ab".data) [charKey 'd']).st
          (charKey 'q') :=
  c2_pending_cleared_iff "ab".data [charKey 'd'] (charKey 'q') rfl

/-- C4 (amended): a dispatch on a grammar key overwrites LastChange exactly
when it is a recording command — a standalone edit x/X/D/C/s/S with no
operator pending, or a doubled operator dd/cc — storing that command's
record; every other dispatch (navigation, yy and operator yanks, paste,
undo/redo, visual-mode d/x/c/y, J, r, and replay itself) leaves LastChange
holding the same value as before. -/
theorem c4_last_change_characterization (e : Engine) (k : KeyEvent)
    (hgr : grammarKey k) :
    (handle_key e k).1.st.last_change
      = if recordsChange e.st k then recordedChange e.st k else e.st.last_change := by
  obtain ⟨ta, st⟩ := e
  rw [show (handle_key (⟨ta, st⟩ : Engine) k).1.st.last_change = (stAfter st k).2 from
    congrArg Prod.snd (handle_key_st_mirror ta st k)]
  exact stAfter_last_spec st k hgr

/-- Witness for C4: the standalone delete x records itself as LastChange. -/
theorem c4_last_change_characterization_witness :
    (handle_key (initNormal "ab".data) (charKey 'x')).1.st.last_change
      = if recordsChange (initNormal "ab".data).st (charKey 'x')
        then recordedChange (initNormal "ab".data).st (charKey 'x')
        else (initNormal "ab".data).st.last_change :=
  c4_last_change_characterization (initNormal "ab".data) (charKey 'x') rfl

end ViSpec
